import Mathlib

/-!
Verification of the matroska-demuxer parsing engine.

A shallow embedding of the parsing routines of the `matroska-demuxer`
crate (`src/ebml.rs`, `src/block.rs`, `src/lib.rs`) together with proofs
of specification claims about them.

Byte sources are modelled as lists of natural numbers (each entry a byte,
i.e. `< 256`); fallible reader operations return
`Except DemuxError (value × unconsumed tail)`.  Machine integers are
modelled as `Nat`/`Int`: `u64` wrap-around carries an explicit `% 2^64`,
`u64` saturating subtraction is `Nat` truncated subtraction, and `i64`
saturating subtraction clamps explicitly.
-/

set_option maxRecDepth 8192

namespace Matroska

/-- The modulus `2^64` of `u64` arithmetic. -/
def u64Mod : Nat := 18446744073709551616

/-- The value `u64::MAX`, the all-ones 64-bit value (used as the unknown-size sentinel). -/
def u64Max : Nat := 18446744073709551615

/-- Rust `u64::saturating_add` (both arguments assumed `< 2^64`). -/
def satAdd64 (a b : Nat) : Nat := min (a + b) u64Max

/-- Wrapping `u64` subtraction (release-mode `a - b`; both arguments `< 2^64`). -/
def sub64 (a b : Nat) : Nat := (u64Mod + a - b) % u64Mod

/-- Rust `i64::saturating_sub`. -/
def satSubI64 (a b : Int) : Int :=
  max (min (a - b) (9223372036854775807 : Int)) (-9223372036854775808 : Int)

/-- A byte stream: the unread suffix of the reader. Entries are bytes (`< 256`). -/
abbrev Bytes := List Nat

/-- The `std::io::ErrorKind` of an underlying I/O error (only the kinds the
development distinguishes). -/
inductive IoErrorKind where
  | UnexpectedEof
  | PermissionDenied
  | Other
deriving DecidableEq, Repr

/-- The subset of `element_id.rs::ElementId` reached by the claims, plus
`Unknown`. -/
inductive ElementId where
  | Ebml
  | EbmlVersion
  | EbmlReadVersion
  | EbmlMaxIdLength
  | EbmlMaxSizeLength
  | DocType
  | DocTypeVersion
  | DocTypeReadVersion
  | Segment
  | SeekHead
  | Info
  | Tracks
  | Cluster
  | BlockGroup
  | Timestamp
  | SimpleBlock
  | Block
  | Cues
  | CuePoint
  | CueTime
  | CueTrackPositions
  | CueTrack
  | CueClusterPosition
  | CueRelativePosition
  | CueDuration
  | CueBlockNumber
  | Crc32
  | Unknown
deriving DecidableEq, Repr

/-- Mirror of `error.rs::DemuxError`.  The wrapped `std::io::Error` is represented by its
kind; `FromUtf8Error`/`TryFromIntError` payloads carry no information the
claims need. -/
inductive DemuxError where
  | IoError (kind : IoErrorKind)
  | FromUtf8Error
  | TryFromIntError
  | InvalidEbmlElementId
  | InvalidEbmlDataSize
  | InvalidEbmlHeader (msg : String)
  | WrongFloatSize (n : Nat)
  | WrongIntegerSize (n : Nat)
  | WrongDateSize (n : Nat)
  | UnsupportedDocType (s : String)
  | UnsupportedDocTypeReadVersion (n : Nat)
  | UnexpectedElement (expected found : ElementId)
  | UnexpectedDataType
  | ElementNotFound (id : ElementId)
  | CantFindCluster
  | NonZeroValueIsZero (id : ElementId)
deriving DecidableEq, Repr

/-- The dynamic error value returned by `Error::source` for a `DemuxError`:
the wrapped inner error, when there is one (`error.rs` lines 137-146). -/
inductive SourceError where
  | io (kind : IoErrorKind)
  | utf8
  | intConv
deriving DecidableEq, Repr

/-- Mirror of `error.rs::DemuxError::source`: `IoError`, `FromUtf8Error` and
`TryFromIntError` expose their wrapped error; every other variant has no
source. -/
def DemuxError.source : DemuxError → Option SourceError
  | .IoError k => some (.io k)
  | .FromUtf8Error => some .utf8
  | .TryFromIntError => some .intConv
  | _ => none

/-- Result of `err.downcast_ref::<std::io::Error>().is_some()` on a source error:
succeeds exactly when the source is a `std::io::Error`. -/
def SourceError.isIo : SourceError → Bool
  | .io _ => true
  | _ => false

/-- Rust `Read::read_exact` into an `n`-byte buffer: returns the bytes read and the
unconsumed tail, or the EOF I/O error when fewer than `n` bytes remain. -/
def read_exact (n : Nat) (bs : Bytes) : Except DemuxError (List Nat × Bytes) :=
  if n ≤ bs.length then .ok (bs.take n, bs.drop n)
  else .error (.IoError .UnexpectedEof)

/-- Reading via `read_exact` into a one-byte buffer, returning the byte. -/
def read_u8 (bs : Bytes) : Except DemuxError (Nat × Bytes) :=
  match bs with
  | [] => .error (.IoError .UnexpectedEof)
  | b :: rest => .ok (b, rest)

/-- Big-endian value of a byte list (`uN::from_be_bytes`). -/
def beBytesToNat (bs : List Nat) : Nat := bs.foldl (fun acc b => acc * 256 + b) 0

/-- Mirror of `ebml.rs::parse_variable_u64_data`: read `left` more bytes into an 8-byte
big-endian buffer headed by the (already masked) first byte, then shift the
loaded `u64` right by `8 * (7 - left)` bits. -/
def parse_variable_u64_data (bs : Bytes) (byte left : Nat) :
    Except DemuxError (Nat × Bytes) :=
  match read_exact left bs with
  | .error e => .error e
  | .ok (tail, rest) =>
      .ok (beBytesToNat ((byte :: tail) ++ List.replicate (7 - left) 0) >>> (8 * (7 - left)),
        rest)

/-- Mirror of `ebml.rs::parse_variable_u32_data`: the 4-byte analogue of
`parse_variable_u64_data`, shifting by `8 * (3 - left)`. -/
def parse_variable_u32_data (bs : Bytes) (byte left : Nat) :
    Except DemuxError (Nat × Bytes) :=
  match read_exact left bs with
  | .error e => .error e
  | .ok (tail, rest) =>
      .ok (beBytesToNat ((byte :: tail) ++ List.replicate (3 - left) 0) >>> (8 * (3 - left)),
        rest)

/-- Mirror of `ebml.rs::parse_variable_u64`: variable-length EBML `u64` (the data size).
The single byte `0xFF` yields the unknown-size sentinel `u64::MAX`. -/
def parse_variable_u64 (bs : Bytes) : Except DemuxError (Nat × Bytes) :=
  match bs with
  | [] => .error (.IoError .UnexpectedEof)
  | byte :: rest =>
    if byte = 0xFF then .ok (u64Max, rest)
    else if byte &&& 0x80 = 0x80 then .ok (0x7F &&& byte, rest)
    else if byte &&& 0xC0 = 0x40 then parse_variable_u64_data rest (0x3F &&& byte) 1
    else if byte &&& 0xE0 = 0x20 then parse_variable_u64_data rest (0x1F &&& byte) 2
    else if byte &&& 0xF0 = 0x10 then parse_variable_u64_data rest (0x0F &&& byte) 3
    else if byte &&& 0xF8 = 0x08 then parse_variable_u64_data rest (0x07 &&& byte) 4
    else if byte &&& 0xFC = 0x04 then parse_variable_u64_data rest (0x03 &&& byte) 5
    else if byte &&& 0xFE = 0x02 then parse_variable_u64_data rest (0x01 &&& byte) 6
    else if byte = 0x01 then parse_variable_u64_data rest 0 7
    else .error .InvalidEbmlDataSize

/-- Helper for `parse_variable_i64`: convert the unsigned payload to `i64` and
apply the width's saturating range shift. -/
def shiftSigned (res : Except DemuxError (Nat × Bytes)) (shift : Int) :
    Except DemuxError (Int × Bytes) :=
  match res with
  | .error e => .error e
  | .ok (v, rest) => .ok (satSubI64 ((v : Nat) : Int) shift, rest)

/-- Mirror of `ebml.rs::parse_variable_i64`: signed variable-length integer (EBML lacing
offsets).  Bytes with a zero upper nibble are skipped; each width decodes the
masked payload as unsigned and subtracts its range shift with `i64`
saturating subtraction. -/
def parse_variable_i64 (bs : Bytes) : Except DemuxError (Int × Bytes) :=
  match bs with
  | [] => .error (.IoError .UnexpectedEof)
  | byte :: rest =>
    if byte &&& 0xF0 = 0x00 then parse_variable_i64 rest
    else if byte &&& 0x80 = 0x80 then .ok (satSubI64 (((0x7F &&& byte : Nat)) : Int) 63, rest)
    else if byte &&& 0xC0 = 0x40 then
      shiftSigned (parse_variable_u32_data rest (0x3F &&& byte) 1) 8191
    else if byte &&& 0xE0 = 0x20 then
      shiftSigned (parse_variable_u32_data rest (0x1F &&& byte) 2) 1048575
    else if byte &&& 0xF0 = 0x10 then
      shiftSigned (parse_variable_u32_data rest (0x0F &&& byte) 3) 134217727
    else .error .InvalidEbmlElementId

example : parse_variable_u64 [0xFF, 7] = .ok (u64Max, [7]) := rfl
example : parse_variable_u64 [0x81, 7] = .ok (1, [7]) := rfl
example : parse_variable_u64 [0x7F, 0xFF] = .ok (16383, []) := rfl
example : parse_variable_u64 [0x40, 0x02, 9] = .ok (2, [9]) := rfl
example : parse_variable_u64 [0x21, 0x23, 0x45] = .ok (0x12345, []) := rfl
example : parse_variable_i64 [0xFF] = .ok (64, []) := rfl
example : parse_variable_i64 [0x80] = .ok (-63, []) := rfl
example : parse_variable_i64 [0x5E, 0xD3] = .ok (-300, []) := rfl

/-! Embedding of `block.rs`: block and lacing decoding. -/

/-- Wrapping `u64` addition (release-mode `a + b`). -/
def addU64 (a b : Nat) : Nat := (a + b) % u64Mod

/-- Rust `i16::from_be_bytes`: two bytes as a two's-complement 16-bit value. -/
def i16_from_be_bytes (b0 b1 : Nat) : Int :=
  if b0 * 256 + b1 < 32768 then ((b0 * 256 + b1 : Nat) : Int)
  else ((b0 * 256 + b1 : Nat) : Int) - 65536

/-- Mirror of `block.rs::parse_i16`: two big-endian bytes as a two's-complement `i16`. -/
def parse_i16 (bs : Bytes) : Except DemuxError (Int × Bytes) :=
  match bs with
  | b0 :: b1 :: rest => .ok (i16_from_be_bytes b0 b1, rest)
  | _ => .error (.IoError .UnexpectedEof)

/-- The absolute timestamp of a block: the cluster timestamp plus the block's
relative `i16` offset (`u64` addition for a positive offset, saturating
subtraction for a non-positive one). -/
def blockTimestamp (cluster_timestamp : Nat) (rel : Int) : Nat :=
  if 0 < rel then (cluster_timestamp + rel.toNat) % u64Mod
  else cluster_timestamp - rel.natAbs

/-- Mirror of `block.rs::parse_timestamp`.  For `i16::MIN` the `abs()` stays negative
(wrapping) and the `u64::try_from` conversion fails with `TryFromIntError`. -/
def parse_timestamp (bs : Bytes) (cluster_timestamp : Nat) :
    Except DemuxError (Nat × Bytes) :=
  match parse_i16 bs with
  | .error e => .error e
  | .ok (t, rest) =>
      if t = -32768 then .error .TryFromIntError
      else .ok (blockTimestamp cluster_timestamp t, rest)

/-- Mirror of `block.rs::parse_u8_as_u64`: one byte widened to `u64`. -/
def parse_u8_as_u64 (bs : Bytes) : Except DemuxError (Nat × Bytes) := read_u8 bs

/-- Mirror of `block.rs::probe_block_timestamp`: skip the track VINT and read the block
timestamp without decoding lacing. -/
def probe_block_timestamp (bs : Bytes) (cluster_timestamp : Nat) :
    Except DemuxError (Nat × Bytes) :=
  match parse_variable_u64 bs with
  | .error e => .error e
  | .ok (_, rest) => parse_timestamp rest cluster_timestamp

/-- Mirror of `block.rs::Lacing`. -/
inductive Lacing where
  | None
  | Xiph
  | Ebml
  | FixedSize
deriving DecidableEq, Repr

/-- Mirror of `impl From<u8> for Lacing`. -/
def Lacing.fromU8 (d : Nat) : Lacing :=
  if d = 1 then .Xiph
  else if d = 2 then .FixedSize
  else if d = 3 then .Ebml
  else .None

/-- Mirror of `block.rs::LacedFrame`. -/
structure LacedFrame where
  track : Nat
  timestamp : Nat
  size : Nat
  is_invisible : Bool
  is_keyframe : Option Bool
  is_discardable : Option Bool
deriving DecidableEq, Repr

/-- The loop body of `block.rs::parse_xiph_frame_size`: keep adding bytes while
they are `0xFF`; the first other byte is the terminator contribution. -/
def parse_xiph_size_go (size : Nat) : Bytes → Except DemuxError (Nat × Bytes)
  | [] => .error (.IoError .UnexpectedEof)
  | b :: rest =>
      let size' := addU64 size b
      if b = 255 then parse_xiph_size_go size' rest else .ok (size', rest)

/-- Mirror of `block.rs::parse_xiph_frame_size`. -/
def parse_xiph_frame_size (bs : Bytes) : Except DemuxError (Nat × Bytes) :=
  parse_xiph_size_go 0 bs

/-- The `for _ in 0..frame_count - 1` loop of the Xiph branch of
`parse_laced_frames`: read `n` Xiph-coded frame sizes in order. -/
def xiph_sizes_loop (n : Nat) (bs : Bytes) : Except DemuxError (List Nat × Bytes) :=
  match n with
  | 0 => .ok ([], bs)
  | n + 1 =>
    match parse_xiph_frame_size bs with
    | .error e => .error e
    | .ok (s, rest) =>
      match xiph_sizes_loop n rest with
      | .error e => .error e
      | .ok (ss, rest') => .ok (s :: ss, rest')

/-- The `for _ in 0..frame_count - 2` loop of the EBML branch of
`parse_laced_frames`: each signed-VINT offset is added to (saturating) or
subtracted from (saturating) the previous size.  For `i64::MIN` the `abs()`
wraps negative and the `u64::try_from` conversion fails. -/
def ebml_sizes_loop (n size : Nat) (bs : Bytes) : Except DemuxError (List Nat × Bytes) :=
  match n with
  | 0 => .ok ([], bs)
  | n + 1 =>
    match parse_variable_i64 bs with
    | .error e => .error e
    | .ok (next_offset, rest) =>
      if next_offset = -9223372036854775808 then .error .TryFromIntError
      else
        let ab := next_offset.natAbs
        let size' := if 0 < next_offset then satAdd64 size ab else size - ab
        match ebml_sizes_loop n size' rest with
        | .error e => .error e
        | .ok (ss, rest') => .ok (size' :: ss, rest')

/-- Mirror of `block.rs` line 94: the laced frame count is the lacing-count byte plus
one, with `u64` saturating addition. -/
def laced_frame_count (count_byte : Nat) : Nat := satAdd64 count_byte 1

/-- Mirror of `block.rs::parse_laced_frames`.  `bs` is the reader suffix starting at
`header_start` (the first byte of the block payload), so the stream position
is `header_start` plus the number of consumed bytes.  Returns the frames
pushed onto the queue, in order, and the unconsumed tail. -/
def parse_laced_frames (bs : Bytes) (block_size cluster_timestamp header_start : Nat)
    (is_simple_block : Bool) : Except DemuxError (List LacedFrame × Bytes) :=
  match parse_variable_u64 bs with
  | .error e => .error e
  | .ok (track, bs1) =>
  match parse_timestamp bs1 cluster_timestamp with
  | .error e => .error e
  | .ok (timestamp, bs2) =>
  match read_u8 bs2 with
  | .error e => .error e
  | .ok (header_byte, bs3) =>
    let is_keyframe : Option Bool :=
      if is_simple_block then some ((header_byte &&& 0x80) >>> 7 == 1) else none
    let is_invisible : Bool := (header_byte &&& 0x08) >>> 3 == 1
    let lacing := Lacing.fromU8 ((header_byte &&& 0x06) >>> 1)
    let is_discardable : Option Bool :=
      if is_simple_block then some (header_byte &&& 0x01 == 1) else none
    if lacing = Lacing.None then
      let header_end := header_start + (bs.length - bs3.length)
      let header_size := header_end - header_start
      let data_size := sub64 block_size header_size
      .ok ([⟨track, timestamp, data_size, is_invisible, is_keyframe, is_discardable⟩], bs3)
    else
      match read_u8 bs3 with
      | .error e => .error e
      | .ok (count_byte, bs4) =>
        let frame_count := laced_frame_count count_byte
        match lacing with
        | .Xiph =>
          match xiph_sizes_loop (frame_count - 1) bs4 with
          | .error e => .error e
          | .ok (sizes, bs5) =>
            let encoded_sizes := sizes.foldl addU64 0
            let header_end := header_start + (bs.length - bs5.length)
            let header_size := header_end - header_start
            let data_size := sub64 block_size header_size
            let last_size := sub64 data_size encoded_sizes
            .ok ((sizes.map fun s =>
                  (⟨track, timestamp, s, is_invisible, is_keyframe, is_discardable⟩ : LacedFrame))
              ++ [⟨track, timestamp, last_size, is_invisible, is_keyframe, is_discardable⟩], bs5)
        | .Ebml =>
          match parse_variable_u64 bs4 with
          | .error e => .error e
          | .ok (size0, bs5) =>
            match (if 2 < frame_count then ebml_sizes_loop (frame_count - 2) size0 bs5
                   else .ok ([], bs5)) with
            | .error e => .error e
            | .ok (sizes, bs6) =>
              let encoded_size := sizes.foldl addU64 size0
              let header_end := header_start + (bs.length - bs6.length)
              let header_size := header_end - header_start
              let data_size := sub64 block_size header_size
              let last_size := sub64 data_size encoded_size
              .ok (((size0 :: sizes).map fun s =>
                    (⟨track, timestamp, s, is_invisible, is_keyframe, is_discardable⟩ : LacedFrame))
                ++ [⟨track, timestamp, last_size, is_invisible, is_keyframe, is_discardable⟩], bs6)
        | .FixedSize =>
          let header_end := header_start + (bs.length - bs4.length)
          let header_size := header_end - header_start
          let data_size := sub64 block_size header_size
          let size := data_size / frame_count
          .ok (List.replicate frame_count
            (⟨track, timestamp, size, is_invisible, is_keyframe, is_discardable⟩ : LacedFrame), bs4)
        | .None => .ok ([], bs4)

example :
    (parse_laced_frames [0x81, 0, 0, 0x04, 2, 1, 2, 3, 4, 5, 6, 7, 8, 9] 14 0 0 true).map
      (fun p => p.1.map LacedFrame.size) = .ok [3, 3, 3] := rfl

example :
    (parse_laced_frames [0x81, 0, 0, 0x02, 2, 255, 255, 255, 35, 255, 245] 2076 0 0 false).map
      (fun p => p.1.map LacedFrame.size) = .ok [800, 500, 765] := rfl

example :
    (parse_laced_frames [0x81, 0, 0, 0x06, 2, 0x43, 0x20, 0x5E, 0xD3] 2074 0 0 false).map
      (fun p => p.1.map LacedFrame.size) = .ok [800, 500, 765] := rfl

/-! Embedding of the `ebml.rs` field queries and of `lib.rs::EbmlHeader`. -/

/-- Mirror of `ebml.rs::ElementData`.  A float payload is kept as its raw IEEE-754 bit
pattern; no claim inspects float values. -/
inductive ElementData where
  | Location (offset size : Nat)
  | Unsigned (v : Nat)
  | Signed (v : Int)
  | Float (bits : Nat)
  | Date (v : Int)
  | Stringy (s : String)
deriving DecidableEq, Repr

/-- The children list of a master element: `(tag, payload)` pairs in wire
order. -/
abbrev Fields := List (ElementId × ElementData)

/-- Mirror of `ebml.rs::try_find_unsigned`. -/
def try_find_unsigned (fields : Fields) (element_id : ElementId) :
    Except DemuxError (Option Nat) :=
  match fields.find? (fun p => p.1 == element_id) with
  | some (_, .Unsigned v) => .ok (some v)
  | some (_, _) => .error .UnexpectedDataType
  | none => .ok none

/-- Mirror of `ebml.rs::find_unsigned`. -/
def find_unsigned (fields : Fields) (element_id : ElementId) : Except DemuxError Nat :=
  match try_find_unsigned fields element_id with
  | .error e => .error e
  | .ok (some v) => .ok v
  | .ok none => .error (.ElementNotFound element_id)

/-- Mirror of `ebml.rs::find_unsigned_or`. -/
def find_unsigned_or (fields : Fields) (element_id : ElementId) (default : Nat) :
    Except DemuxError Nat :=
  match try_find_unsigned fields element_id with
  | .error e => .error e
  | .ok (some v) => .ok v
  | .ok none => .ok default

/-- Mirror of `ebml.rs::try_find_string`. -/
def try_find_string (fields : Fields) (element_id : ElementId) :
    Except DemuxError (Option String) :=
  match fields.find? (fun p => p.1 == element_id) with
  | some (_, .Stringy s) => .ok (some s)
  | some (_, _) => .error .UnexpectedDataType
  | none => .ok none

/-- Mirror of `ebml.rs::find_string`. -/
def find_string (fields : Fields) (element_id : ElementId) : Except DemuxError String :=
  match try_find_string fields element_id with
  | .error e => .error e
  | .ok (some s) => .ok s
  | .ok none => .error (.ElementNotFound element_id)

/-- Rust `str::trim_end_matches('\0')`: drop all trailing NUL characters. -/
def trim_end_nul (s : String) : String :=
  String.mk ((s.data.reverse.dropWhile (fun c => c == '\x00')).reverse)

/-- Mirror of `lib.rs::DEMUXER_DOC_TYPE_VERSION`. -/
def DEMUXER_DOC_TYPE_VERSION : Nat := 4

/-- Mirror of `lib.rs::EbmlHeader`. -/
structure EbmlHeader where
  version : Option Nat
  read_version : Option Nat
  max_id_length : Nat
  max_size_length : Nat
  doc_type : String
  doc_type_version : Nat
  doc_type_read_version : Nat
deriving DecidableEq, Repr

/-- Mirror of `lib.rs::EbmlHeader::new` (`ParsableElement::new` for the EBML header):
bind the fields, right-trim NULs from the doc type and run the four
validation checks in source order. -/
def EbmlHeader.new (fields : Fields) : Except DemuxError EbmlHeader :=
  match try_find_unsigned fields .EbmlVersion with
  | .error e => .error e
  | .ok version =>
  match try_find_unsigned fields .EbmlReadVersion with
  | .error e => .error e
  | .ok read_version =>
  match find_unsigned_or fields .EbmlMaxIdLength 4 with
  | .error e => .error e
  | .ok max_id_length =>
  match find_unsigned_or fields .EbmlMaxSizeLength 8 with
  | .error e => .error e
  | .ok max_size_length =>
  match find_string fields .DocType with
  | .error e => .error e
  | .ok doc_type =>
  match find_unsigned fields .DocTypeVersion with
  | .error e => .error e
  | .ok doc_type_version =>
  match find_unsigned fields .DocTypeReadVersion with
  | .error e => .error e
  | .ok doc_type_read_version =>
    let trimmed_doc_type := trim_end_nul doc_type
    if trimmed_doc_type ≠ "matroska" ∧ trimmed_doc_type ≠ "webm" then
      .error (.InvalidEbmlHeader ("unsupported DocType: " ++ doc_type))
    else if DEMUXER_DOC_TYPE_VERSION ≤ doc_type_read_version then
      .error (.InvalidEbmlHeader
        ("unsupported DocTypeReadVersion: " ++ toString doc_type_read_version))
    else if 4 < max_id_length then
      .error (.InvalidEbmlHeader ("unsupported MaxIdLength: " ++ toString max_id_length))
    else if 8 < max_size_length then
      .error (.InvalidEbmlHeader ("unsupported MaxSizeLength: " ++ toString max_size_length))
    else
      .ok ⟨version, read_version, max_id_length, max_size_length, doc_type,
        doc_type_version, doc_type_read_version⟩

example :
    EbmlHeader.new [(.EbmlVersion, .Unsigned 1), (.EbmlReadVersion, .Unsigned 1),
      (.EbmlMaxIdLength, .Unsigned 4), (.EbmlMaxSizeLength, .Unsigned 8),
      (.DocType, .Stringy "matroska"), (.DocTypeVersion, .Unsigned 4),
      (.DocTypeReadVersion, .Unsigned 2)] =
    .ok ⟨some 1, some 1, 4, 8, "matroska", 4, 2⟩ := rfl

example :
    EbmlHeader.new [(.DocType, .Stringy "webm\x00\x00\x00\x00"),
      (.DocTypeVersion, .Unsigned 4), (.DocTypeReadVersion, .Unsigned 2)] =
    .ok ⟨none, none, 4, 8, "webm\x00\x00\x00\x00", 4, 2⟩ := rfl

/-! Embedding of `lib.rs`: frame cursor and seek engine.

The element loops of `next_frame`, `seek_narrow_phase` and the cue-less
broad phase all consume the file through `ebml::next_element`, dispatching
only on whether the element is a `Cluster`/`BlockGroup` master, a cluster
`Timestamp`, a `SimpleBlock`/`Block`, anything else, or a read error.  We
model the file at that interface: a list of successive `next_element`
outcomes.  A `Cluster`/`BlockGroup` master is entered (the cursor descends
to its data, i.e. its children follow in the list); any other element was
already skipped by `next_element`.  The byte source is deterministic, so a
failing read at a given position fails the same way when re-read; the end
of the list is a read failing with an EOF `std::io::Error`.  A block
element carries the outcome of probing its track VINT + `i16` offset
(shared by `probe_block_timestamp` and `parse_laced_frames`, which parse
the same bytes with `parse_variable_u64`/`parse_timestamp`), and, when the
probe succeeds, the error, if any, with which the rest of its lace parsing
or frame-data read fails. -/

/-- One `next_element` outcome, as dispatched by the cursor loops. -/
inductive SElem where
  | cluster
  | timestamp (t : Nat)
  | blockElem (probe : Except DemuxError Int) (laceErr : Option DemuxError)
  | otherElem
  | errElem (e : DemuxError)
deriving Repr

/-- Whether `err.source()` yields a wrapped `std::io::Error` — the test the
`Err` arms of `next_frame`/`seek_narrow_phase` use to treat an error as
end-of-stream. -/
def sourceIsIo (e : DemuxError) : Bool :=
  match e.source with
  | some se => se.isIo
  | none => false

/-- Mirror of `lib.rs::MatroskaFile::seek_narrow_phase` (lines 1797-1850) over the
element-outcome model: walk elements updating the cluster timestamp; skip
each block whose probed timestamp is `< seek_timestamp`; at the first block
whose timestamp is not, rewind to just before the block and return.  A read
error wrapping an I/O error ends the scan (`Ok(())`); other errors
propagate.  Returns the remaining element stream (the rewound position) and
the current cluster timestamp. -/
def seek_narrow_phase (seek_timestamp : Nat) :
    List SElem → Nat → Except DemuxError (List SElem × Nat)
  | [], cts => .ok ([], cts)
  | .cluster :: rest, cts => seek_narrow_phase seek_timestamp rest cts
  | .timestamp t :: rest, _ => seek_narrow_phase seek_timestamp rest t
  | .blockElem probe laceErr :: rest, cts =>
      match probe with
      | .error e => .error e
      | .ok rel =>
          if blockTimestamp cts rel < seek_timestamp then
            seek_narrow_phase seek_timestamp rest cts
          else .ok (.blockElem (.ok rel) laceErr :: rest, cts)
  | .otherElem :: rest, cts => seek_narrow_phase seek_timestamp rest cts
  | .errElem e :: rest, cts =>
      if sourceIsIo e then .ok (.errElem e :: rest, cts) else .error e

/-- Mirror of `lib.rs::MatroskaFile::next_frame` (lines 1602-1661) over the
element-outcome model, called with an empty `queued_frames` queue (as after
`seek`): search for the next block and return the timestamp of the first
frame it queues (`parse_laced_frames` stamps every laced frame with the
block timestamp), `none` for `Ok(false)` (end of stream), or the
propagated error. -/
def next_frame_scan : List SElem → Nat → Except DemuxError (Option Nat)
  | [], _ => .ok none
  | .cluster :: rest, cts => next_frame_scan rest cts
  | .timestamp t :: rest, _ => next_frame_scan rest t
  | .blockElem probe laceErr :: _, cts =>
      match probe with
      | .error e => .error e
      | .ok rel =>
          match laceErr with
          | some e => .error e
          | none => .ok (some (blockTimestamp cts rel))
  | .otherElem :: rest, cts => next_frame_scan rest cts
  | .errElem e :: _, _ =>
      if sourceIsIo e then .ok none else .error e

/-! Embedding of `lib.rs`: cue points and the broad phase of `seek`. -/

/-- Mirror of `lib.rs::CueTrackPositions` (underscore-prefixed fields included). -/
structure CueTrackPositions where
  track : Nat
  cluster_position : Nat
  relative_position : Option Nat
  duration : Option Nat
  block_number : Option Nat
deriving DecidableEq, Repr

/-- Mirror of `lib.rs::CuePoint`. -/
structure CuePointRec where
  time : Nat
  track_position : CueTrackPositions
deriving DecidableEq, Repr

instance : Inhabited CuePointRec := ⟨⟨0, ⟨0, 0, none, none, none⟩⟩⟩

/-- Mirror of the `Result<usize, usize>` of Rust's `slice::binary_search_by`. -/
inductive SearchResult where
  | found (i : Nat)
  | notFound (i : Nat)
deriving DecidableEq, Repr

/-- The loop of Rust's `slice::binary_search_by`, specialized to the
comparator `|p| p.time.cmp(&seek_timestamp)` used by `seek_broad_phase`:
`left`/`right` bracket the unsearched range, `mid = left + size / 2` with
`size = right - left`.  The loop runs at most `right - left + 1` times
(`right - left` strictly shrinks each iteration), so `fuel` bounds the
iteration count; the `fuel = 0` case is unreachable from the entry point. -/
def binary_search_go (ps : List CuePointRec) (seek_timestamp : Nat) :
    Nat → Nat → Nat → SearchResult
  | 0, left, _ => .notFound left
  | fuel + 1, left, right =>
    if left < right then
      let mid := left + (right - left) / 2
      let pt := ps.getD mid default
      if pt.time < seek_timestamp then binary_search_go ps seek_timestamp fuel (mid + 1) right
      else if seek_timestamp < pt.time then binary_search_go ps seek_timestamp fuel left mid
      else .found mid
    else .notFound left

/-- Mirror of `cue_points.binary_search_by(|p| p.time.cmp(&seek_timestamp))`. -/
def binary_search_by_time (ps : List CuePointRec) (seek_timestamp : Nat) : SearchResult :=
  binary_search_go ps seek_timestamp (ps.length + 1) 0 ps.length

/-- Control-flow outcome of the cue-point fast path of
`lib.rs::MatroskaFile::seek_broad_phase` (lines 1714-1736). -/
inductive BroadPhaseCue where
  /-- The fast path returned the selected cue point's `cluster_position`. -/
  | clusterPos (offset : Nat)
  /-- The selected cue point has a `relative_position`: the returned offset is
  the first cluster's data offset plus this value (computed from the file by
  `get_cluster_offset_and_timestamp`). -/
  | relativePos (relative : Nat)
  /-- The fast path did not return; the broad phase falls through to the
  linear cluster scan. -/
  | fallthrough
deriving DecidableEq, Repr

/-- The cue-point fast path of `seek_broad_phase`: binary-search the cue
times, step back one on a missed probe (`saturating_sub`), and take the fast
path only when the selected point's time is `≤ seek_timestamp`. -/
def seek_broad_phase_cue (cue_points : List CuePointRec) (seek_timestamp : Nat) :
    BroadPhaseCue :=
  let seek_pos :=
    match binary_search_by_time cue_points seek_timestamp with
    | .found i => i
    | .notFound i => i - 1
  match cue_points.get? seek_pos with
  | some point =>
      if point.time ≤ seek_timestamp then
        match point.track_position.relative_position with
        | some relative_position => .relativePos relative_position
        | none => .clusterPos point.track_position.cluster_position
      else .fallthrough
  | none => .fallthrough

example :
    seek_broad_phase_cue
      [⟨0, ⟨1, 10, none, none, none⟩⟩, ⟨100, ⟨1, 20, none, none, none⟩⟩,
       ⟨200, ⟨1, 30, none, none, none⟩⟩, ⟨300, ⟨1, 40, none, none, none⟩⟩] 150 =
    .clusterPos 20 := rfl

example :
    seek_broad_phase_cue [⟨10, ⟨1, 100, none, none, none⟩⟩] 5 = .fallthrough := rfl

/-! Spec-modelled encoders.

The crate is a pure demuxer and contains no encoder, so the encoding side
of the spec's round-trip properties is modelled from the spec. -/

/-- Big-endian byte list of the low `8 * len` bits of `v`. -/
def natToBytesBE (v : Nat) : Nat → Bytes
  | 0 => []
  | len + 1 => (v >>> (8 * len)) % 256 :: natToBytesBE v len

/-- Modelled from the spec: the minimal VINT width (1-8 bytes) whose
reserved all-ones pattern `2^(7N) - 1` is strictly above `v`. -/
def vintWidth (v : Nat) : Nat :=
  if v < 127 then 1
  else if v < 16383 then 2
  else if v < 2097151 then 3
  else if v < 268435455 then 4
  else if v < 34359738367 then 5
  else if v < 4398046511103 then 6
  else if v < 562949953421311 then 7
  else 8

/-- Modelled from the spec: EBML VINT coding of an unsigned value (as used
for data sizes and lacing first sizes) — the marker bit `2^(8-N)` and the
top value bits in the first byte, the remaining `8(N-1)` value bits
big-endian, with `N = vintWidth v` so that the reserved all-ones
(unknown-size) pattern is never produced.  Valid for `v ≤ 2^56 - 2`. -/
def encodeVint (v : Nat) : Bytes :=
  (2 ^ (8 - vintWidth v) + v / 256 ^ (vintWidth v - 1)) :: natToBytesBE v (vintWidth v - 1)

/-- The signed-VINT range shift for width `N`: `2^(7N-1) - 1`. -/
def signedVintShift (N : Nat) : Int := 2 ^ (7 * N - 1) - 1

/-- Modelled from the spec: signed VINT (EBML lacing offset) coding at width
`N ∈ [1,4]`: the range-shifted value `v + (2^(7N-1) - 1)` behind the
width-`N` marker bit. -/
def encodeSignedVint (N : Nat) (v : Int) : Bytes :=
  (2 ^ (8 - N) + (v + signedVintShift N).toNat / 256 ^ (N - 1)) ::
    natToBytesBE (v + signedVintShift N).toNat (N - 1)

/-- Modelled from the spec: minimal signed-VINT width for a lacing delta. -/
def signedVintWidth (d : Int) : Nat :=
  if -63 ≤ d ∧ d ≤ 64 then 1
  else if -8191 ≤ d ∧ d ≤ 8192 then 2
  else if -1048575 ≤ d ∧ d ≤ 1048576 then 3
  else 4

/-- Modelled from the spec: Xiph lacing coding of one frame size — `s / 255`
bytes of `0xFF` followed by the terminator byte `s % 255`. -/
def xiphEncodeSize (s : Nat) : Bytes := List.replicate (s / 255) 255 ++ [s % 255]

/-- Modelled from the spec: the Xiph lacing size table coding the given
frame sizes (all but the block's last). -/
def xiphTable (sizes : List Nat) : Bytes := (sizes.map xiphEncodeSize).flatten

/-- Modelled from the spec: the delta part of an EBML lacing size table —
each successive size minus its predecessor, signed-VINT coded at minimal
width. -/
def ebmlDeltas (prev : Nat) : List Nat → Bytes
  | [] => []
  | s :: ss =>
      encodeSignedVint (signedVintWidth ((s : Int) - (prev : Int))) ((s : Int) - (prev : Int))
        ++ ebmlDeltas s ss

/-- Modelled from the spec: the EBML lacing size table coding the given
frame sizes (all but the block's last) — the first size as an unsigned
VINT, then the successive differences as signed VINTs. -/
def ebmlTable : List Nat → Bytes
  | [] => []
  | s :: ss => encodeVint s ++ ebmlDeltas s ss

example : encodeVint 800 = [0x43, 0x20] := rfl
example : encodeSignedVint 2 (-300) = [0x5E, 0xD3] := rfl
example : xiphEncodeSize 800 = [255, 255, 255, 35] := rfl
example : xiphEncodeSize 500 = [255, 245] := rfl
example : ebmlTable [800, 500] = [0x43, 0x20, 0x5E, 0xD3] := rfl

/-! Arithmetic and byte-buffer lemmas. -/

lemma sub64_eq_sub (a b : Nat) (hb : b ≤ a) (ha : a < u64Mod) : sub64 a b = a - b := by
  unfold sub64 u64Mod at *
  omega

lemma satAdd64_eq_add (a b : Nat) (h : a + b ≤ u64Max) : satAdd64 a b = a + b := by
  unfold satAdd64 u64Max at *
  omega

lemma addU64_eq_add (a b : Nat) (h : a + b < u64Mod) : addU64 a b = a + b := by
  unfold addU64 u64Mod at *
  omega

lemma satSubI64_eq_sub (a b : Int) (h1 : -9223372036854775808 ≤ a - b)
    (h2 : a - b ≤ 9223372036854775807) : satSubI64 a b = a - b := by
  unfold satSubI64
  omega

lemma foldl_be_acc (xs : List Nat) (a : Nat) :
    xs.foldl (fun acc b => acc * 256 + b) a = a * 256 ^ xs.length + beBytesToNat xs := by
  induction xs generalizing a with
  | nil => simp [beBytesToNat]
  | cons x xs ih =>
      simp only [List.foldl_cons, List.length_cons, beBytesToNat] at *
      rw [ih (a * 256 + x), ih (0 * 256 + x)]
      ring

lemma beBytesToNat_cons (x : Nat) (xs : List Nat) :
    beBytesToNat (x :: xs) = x * 256 ^ xs.length + beBytesToNat xs := by
  have h := foldl_be_acc xs x
  simpa [beBytesToNat] using h

lemma beBytesToNat_append (xs ys : List Nat) :
    beBytesToNat (xs ++ ys) = beBytesToNat xs * 256 ^ ys.length + beBytesToNat ys := by
  unfold beBytesToNat
  rw [List.foldl_append]
  exact foldl_be_acc ys _

lemma beBytesToNat_replicate_zero (k : Nat) : beBytesToNat (List.replicate k 0) = 0 := by
  induction k with
  | zero => rfl
  | succ k ih => rw [List.replicate_succ, beBytesToNat_cons, ih]; simp

lemma beBytesToNat_append_zeros (xs : List Nat) (k : Nat) :
    beBytesToNat (xs ++ List.replicate k 0) = beBytesToNat xs * 256 ^ k := by
  rw [beBytesToNat_append, beBytesToNat_replicate_zero, List.length_replicate]
  simp

lemma length_natToBytesBE (v len : Nat) : (natToBytesBE v len).length = len := by
  induction len with
  | zero => rfl
  | succ len ih => simp [natToBytesBE, ih]

lemma pow256_eq_pow2 (k : Nat) : (256 : Nat) ^ k = 2 ^ (8 * k) := by
  rw [show (256 : Nat) = 2 ^ 8 from rfl, ← Nat.pow_mul]

lemma beBytesToNat_natToBytesBE (v len : Nat) :
    beBytesToNat (natToBytesBE v len) = v % 256 ^ len := by
  induction len with
  | zero => simp [natToBytesBE, beBytesToNat, Nat.mod_one]
  | succ len ih =>
      rw [natToBytesBE, beBytesToNat_cons, length_natToBytesBE, ih]
      rw [Nat.shiftRight_eq_div_pow, ← pow256_eq_pow2]
      rw [pow_succ, Nat.mod_mul]
      ring

lemma read_exact_append (xs ys : Bytes) : read_exact xs.length (xs ++ ys) = .ok (xs, ys) := by
  unfold read_exact
  rw [if_pos (by simp)]
  rw [List.take_left, List.drop_left]

lemma parse_variable_u64_data_append (byte : Nat) (tail rest : Bytes) :
    parse_variable_u64_data (tail ++ rest) byte tail.length =
      .ok (beBytesToNat (byte :: tail), rest) := by
  unfold parse_variable_u64_data
  rw [read_exact_append]
  dsimp only
  rw [beBytesToNat_append_zeros]
  rw [Nat.shiftRight_eq_div_pow, ← pow256_eq_pow2]
  rw [Nat.mul_div_cancel _ (Nat.pos_pow_of_pos _ (by norm_num))]

lemma parse_variable_u32_data_append (byte : Nat) (tail rest : Bytes) :
    parse_variable_u32_data (tail ++ rest) byte tail.length =
      .ok (beBytesToNat (byte :: tail), rest) := by
  unfold parse_variable_u32_data
  rw [read_exact_append]
  dsimp only
  rw [beBytesToNat_append_zeros]
  rw [Nat.shiftRight_eq_div_pow, ← pow256_eq_pow2]
  rw [Nat.mul_div_cancel _ (Nat.pos_pow_of_pos _ (by norm_num))]

/-! Bit-level facts about a marker byte in each width's range, discharged by
exhaustive evaluation over the byte. -/

lemma first_byte_w1 : ∀ b, b < 256 → (128 ≤ b → (b &&& 128 = 128) ∧ 127 &&& b = b - 128) := by
  decide

lemma first_byte_not_w1 : ∀ b, b < 128 → ¬(b &&& 128 = 128) := by decide

lemma first_byte_w2 : ∀ b, b < 128 → (64 ≤ b → (b &&& 192 = 64) ∧ 63 &&& b = b - 64) := by
  decide

lemma first_byte_not_w2 : ∀ b, b < 64 → ¬(b &&& 192 = 64) := by decide

lemma first_byte_w3 : ∀ b, b < 64 → (32 ≤ b → (b &&& 224 = 32) ∧ 31 &&& b = b - 32) := by
  decide

lemma first_byte_not_w3 : ∀ b, b < 32 → ¬(b &&& 224 = 32) := by decide

lemma first_byte_w4 : ∀ b, b < 32 → (16 ≤ b → (b &&& 240 = 16) ∧ 15 &&& b = b - 16) := by
  decide

lemma first_byte_not_w4 : ∀ b, b < 16 → ¬(b &&& 240 = 16) := by decide

lemma first_byte_w5 : ∀ b, b < 16 → (8 ≤ b → (b &&& 248 = 8) ∧ 7 &&& b = b - 8) := by decide

lemma first_byte_not_w5 : ∀ b, b < 8 → ¬(b &&& 248 = 8) := by decide

lemma first_byte_w6 : ∀ b, b < 8 → (4 ≤ b → (b &&& 252 = 4) ∧ 3 &&& b = b - 4) := by decide

lemma first_byte_not_w6 : ∀ b, b < 4 → ¬(b &&& 252 = 4) := by decide

lemma first_byte_w7 : ∀ b, b < 4 → (2 ≤ b → (b &&& 254 = 2) ∧ 1 &&& b = b - 2) := by decide

lemma first_byte_not_w7 : ∀ b, b < 2 → ¬(b &&& 254 = 2) := by decide

lemma first_byte_skip : ∀ b, b < 256 → (16 ≤ b → ¬(b &&& 240 = 0)) := by decide

lemma parse_variable_u64_data_bytes (byte v len : Nat) (rest : Bytes) :
    parse_variable_u64_data (natToBytesBE v len ++ rest) byte len =
      .ok (byte * 256 ^ len + v % 256 ^ len, rest) := by
  have h := parse_variable_u64_data_append byte (natToBytesBE v len) rest
  rw [length_natToBytesBE] at h
  rw [h, beBytesToNat_cons, length_natToBytesBE, beBytesToNat_natToBytesBE]

lemma parse_variable_u32_data_bytes (byte v len : Nat) (rest : Bytes) :
    parse_variable_u32_data (natToBytesBE v len ++ rest) byte len =
      .ok (byte * 256 ^ len + v % 256 ^ len, rest) := by
  have h := parse_variable_u32_data_append byte (natToBytesBE v len) rest
  rw [length_natToBytesBE] at h
  rw [h, beBytesToNat_cons, length_natToBytesBE, beBytesToNat_natToBytesBE]

/-- Decoding an encoded unsigned VINT returns the value and leaves the
trailing bytes unconsumed (round trip for every value below the 8-byte
all-ones sentinel pattern). -/
lemma parse_variable_u64_encodeVint (v : Nat) (hv : v ≤ 72057594037927934) (rest : Bytes) :
    parse_variable_u64 (encodeVint v ++ rest) = .ok (v, rest) := by
  unfold encodeVint vintWidth
  split_ifs with h1 h2 h3 h4 h5 h6 h7
  · -- width 1
    have hfb := (first_byte_w1 (2 ^ (8 - 1) + v / 256 ^ (1 - 1)) (by norm_num <;> omega))
      (by norm_num <;> omega)
    norm_num at hfb ⊢
    simp only [natToBytesBE, List.nil_append, parse_variable_u64]
    rw [if_neg (by omega), if_pos hfb.1, hfb.2]
  · -- width 2
    have hd : v / 256 < 64 := by omega
    have hfb := (first_byte_w2 (2 ^ (8 - 2) + v / 256 ^ (2 - 1)) (by norm_num <;> omega))
      (by norm_num)
    have hnot1 := first_byte_not_w1 (2 ^ (8 - 2) + v / 256 ^ (2 - 1)) (by norm_num <;> omega)
    norm_num at hfb hnot1 ⊢
    simp only [parse_variable_u64]
    rw [if_neg (by omega), if_neg hnot1, if_pos hfb.1, hfb.2]
    rw [parse_variable_u64_data_bytes]
    rw [show (256 : Nat) ^ 1 = 256 by norm_num]
    rw [show v / 256 * 256 + v % 256 = v by omega]
  · -- width 3
    have hd : v / 256 ^ 2 < 32 := by omega
    have hfb := (first_byte_w3 (2 ^ (8 - 3) + v / 256 ^ (3 - 1)) (by norm_num <;> omega))
      (by norm_num)
    have hnot1 := first_byte_not_w1 (2 ^ (8 - 3) + v / 256 ^ (3 - 1)) (by norm_num <;> omega)
    have hnot2 := first_byte_not_w2 (2 ^ (8 - 3) + v / 256 ^ (3 - 1)) (by norm_num <;> omega)
    norm_num at hfb hnot1 hnot2 ⊢
    simp only [parse_variable_u64]
    rw [if_neg (by omega), if_neg hnot1, if_neg hnot2, if_pos hfb.1, hfb.2]
    rw [parse_variable_u64_data_bytes]
    rw [show (256 : Nat) ^ 2 = 65536 by norm_num]
    rw [show v / 65536 * 65536 + v % 65536 = v by omega]
  · -- width 4
    have hd : v / 256 ^ 3 < 16 := by omega
    have hfb := (first_byte_w4 (2 ^ (8 - 4) + v / 256 ^ (4 - 1)) (by norm_num <;> omega))
      (by norm_num)
    have hnot1 := first_byte_not_w1 (2 ^ (8 - 4) + v / 256 ^ (4 - 1)) (by norm_num <;> omega)
    have hnot2 := first_byte_not_w2 (2 ^ (8 - 4) + v / 256 ^ (4 - 1)) (by norm_num <;> omega)
    have hnot3 := first_byte_not_w3 (2 ^ (8 - 4) + v / 256 ^ (4 - 1)) (by norm_num <;> omega)
    norm_num at hfb hnot1 hnot2 hnot3 ⊢
    simp only [parse_variable_u64]
    rw [if_neg (by omega), if_neg hnot1, if_neg hnot2, if_neg hnot3, if_pos hfb.1, hfb.2]
    rw [parse_variable_u64_data_bytes]
    rw [show (256 : Nat) ^ 3 = 16777216 by norm_num]
    rw [show v / 16777216 * 16777216 + v % 16777216 = v by omega]
  · -- width 5
    have hd : v / 256 ^ 4 < 8 := by omega
    have hfb := (first_byte_w5 (2 ^ (8 - 5) + v / 256 ^ (5 - 1)) (by norm_num <;> omega))
      (by norm_num)
    have hnot1 := first_byte_not_w1 (2 ^ (8 - 5) + v / 256 ^ (5 - 1)) (by norm_num <;> omega)
    have hnot2 := first_byte_not_w2 (2 ^ (8 - 5) + v / 256 ^ (5 - 1)) (by norm_num <;> omega)
    have hnot3 := first_byte_not_w3 (2 ^ (8 - 5) + v / 256 ^ (5 - 1)) (by norm_num <;> omega)
    have hnot4 := first_byte_not_w4 (2 ^ (8 - 5) + v / 256 ^ (5 - 1)) (by norm_num <;> omega)
    norm_num at hfb hnot1 hnot2 hnot3 hnot4 ⊢
    simp only [parse_variable_u64]
    rw [if_neg (by omega), if_neg hnot1, if_neg hnot2, if_neg hnot3, if_neg hnot4,
      if_pos hfb.1, hfb.2]
    rw [parse_variable_u64_data_bytes]
    rw [show (256 : Nat) ^ 4 = 4294967296 by norm_num]
    rw [show v / 4294967296 * 4294967296 + v % 4294967296 = v by omega]
  · -- width 6
    have hd : v / 256 ^ 5 < 4 := by omega
    have hfb := (first_byte_w6 (2 ^ (8 - 6) + v / 256 ^ (6 - 1)) (by norm_num <;> omega))
      (by norm_num)
    have hnot1 := first_byte_not_w1 (2 ^ (8 - 6) + v / 256 ^ (6 - 1)) (by norm_num <;> omega)
    have hnot2 := first_byte_not_w2 (2 ^ (8 - 6) + v / 256 ^ (6 - 1)) (by norm_num <;> omega)
    have hnot3 := first_byte_not_w3 (2 ^ (8 - 6) + v / 256 ^ (6 - 1)) (by norm_num <;> omega)
    have hnot4 := first_byte_not_w4 (2 ^ (8 - 6) + v / 256 ^ (6 - 1)) (by norm_num <;> omega)
    have hnot5 := first_byte_not_w5 (2 ^ (8 - 6) + v / 256 ^ (6 - 1)) (by norm_num <;> omega)
    norm_num at hfb hnot1 hnot2 hnot3 hnot4 hnot5 ⊢
    simp only [parse_variable_u64]
    rw [if_neg (by omega), if_neg hnot1, if_neg hnot2, if_neg hnot3, if_neg hnot4,
      if_neg hnot5, if_pos hfb.1, hfb.2]
    rw [parse_variable_u64_data_bytes]
    rw [show (256 : Nat) ^ 5 = 1099511627776 by norm_num]
    rw [show v / 1099511627776 * 1099511627776 + v % 1099511627776 = v by omega]
  · -- width 7
    have hd : v / 256 ^ 6 < 2 := by omega
    have hfb := (first_byte_w7 (2 ^ (8 - 7) + v / 256 ^ (7 - 1)) (by norm_num <;> omega))
      (by norm_num)
    have hnot1 := first_byte_not_w1 (2 ^ (8 - 7) + v / 256 ^ (7 - 1)) (by norm_num <;> omega)
    have hnot2 := first_byte_not_w2 (2 ^ (8 - 7) + v / 256 ^ (7 - 1)) (by norm_num <;> omega)
    have hnot3 := first_byte_not_w3 (2 ^ (8 - 7) + v / 256 ^ (7 - 1)) (by norm_num <;> omega)
    have hnot4 := first_byte_not_w4 (2 ^ (8 - 7) + v / 256 ^ (7 - 1)) (by norm_num <;> omega)
    have hnot5 := first_byte_not_w5 (2 ^ (8 - 7) + v / 256 ^ (7 - 1)) (by norm_num <;> omega)
    have hnot6 := first_byte_not_w6 (2 ^ (8 - 7) + v / 256 ^ (7 - 1)) (by norm_num <;> omega)
    norm_num at hfb hnot1 hnot2 hnot3 hnot4 hnot5 hnot6 ⊢
    simp only [parse_variable_u64]
    rw [if_neg (by omega), if_neg hnot1, if_neg hnot2, if_neg hnot3, if_neg hnot4,
      if_neg hnot5, if_neg hnot6, if_pos hfb.1]
    have hmask : 1 &&& (2 + v / 281474976710656) = v / 281474976710656 := by
      have hx : v / 281474976710656 = 0 ∨ v / 281474976710656 = 1 := by omega
      rcases hx with hx | hx <;> rw [hx] <;> rfl
    rw [hmask]
    rw [parse_variable_u64_data_bytes]
    rw [show (256 : Nat) ^ 6 = 281474976710656 by norm_num]
    rw [show v / 281474976710656 * 281474976710656 + v % 281474976710656 = v by omega]
  · -- width 8
    norm_num
    rw [show v / 72057594037927936 = 0 by omega]
    norm_num
    simp only [parse_variable_u64]
    rw [if_neg (by omega)]
    rw [if_neg (first_byte_not_w1 1 (by omega)), if_neg (first_byte_not_w2 1 (by omega)),
      if_neg (first_byte_not_w3 1 (by omega)), if_neg (first_byte_not_w4 1 (by omega)),
      if_neg (first_byte_not_w5 1 (by omega)), if_neg (first_byte_not_w6 1 (by omega)),
      if_neg (first_byte_not_w7 1 (by omega))]
    rw [if_pos trivial]
    rw [parse_variable_u64_data_bytes]
    rw [show (256 : Nat) ^ 7 = 72057594037927936 by norm_num]
    rw [show (0 : Nat) * 72057594037927936 + v % 72057594037927936 = v by omega]

/-- Decoding an encoded signed VINT of width `N ∈ [1,4]` returns the value
and leaves the trailing bytes unconsumed, for every value in the width's
range `[-(2^(7N-1) - 1), 2^(7N-1)]`. -/
lemma parse_variable_i64_encodeSignedVint (N : Nat) (hN1 : 1 ≤ N) (hN4 : N ≤ 4) (v : Int)
    (hlo : -signedVintShift N ≤ v) (hhi : v ≤ 2 ^ (7 * N - 1)) (rest : Bytes) :
    parse_variable_i64 (encodeSignedVint N v ++ rest) = .ok (v, rest) := by
  interval_cases N
  · -- width 1
    unfold signedVintShift at hlo
    norm_num at hlo hhi
    unfold encodeSignedVint signedVintShift
    norm_num
    simp only [natToBytesBE, List.nil_append, parse_variable_i64]
    have hraw : (v + 63).toNat ≤ 127 := by omega
    rw [if_neg ((first_byte_skip (128 + (v + 63).toNat) (by omega)) (by omega))]
    rw [if_pos ((first_byte_w1 (128 + (v + 63).toNat) (by omega)) (by omega)).1]
    rw [((first_byte_w1 (128 + (v + 63).toNat) (by omega)) (by omega)).2]
    rw [show (128 : Nat) + (v + 63).toNat - 128 = (v + 63).toNat by omega]
    rw [satSubI64_eq_sub _ _ (by omega) (by omega)]
    rw [show (((v + 63).toNat : Nat) : Int) - 63 = v by omega]
  · -- width 2
    unfold signedVintShift at hlo
    norm_num at hlo hhi
    unfold encodeSignedVint signedVintShift
    norm_num
    simp only [parse_variable_i64]
    have hraw : (v + 8191).toNat ≤ 16383 := by omega
    have hd : (v + 8191).toNat / 256 < 64 := by omega
    rw [if_neg ((first_byte_skip (64 + (v + 8191).toNat / 256) (by omega)) (by omega))]
    rw [if_neg (first_byte_not_w1 (64 + (v + 8191).toNat / 256) (by omega))]
    rw [if_pos ((first_byte_w2 (64 + (v + 8191).toNat / 256) (by omega)) (by omega)).1]
    rw [((first_byte_w2 (64 + (v + 8191).toNat / 256) (by omega)) (by omega)).2]
    rw [show (64 : Nat) + (v + 8191).toNat / 256 - 64 = (v + 8191).toNat / 256 by omega]
    rw [parse_variable_u32_data_bytes]
    simp only [shiftSigned]
    rw [show (v + 8191).toNat / 256 * 256 ^ 1 + (v + 8191).toNat % 256 ^ 1 =
      (v + 8191).toNat by norm_num; omega]
    rw [satSubI64_eq_sub _ _ (by omega) (by omega)]
    rw [show (((v + 8191).toNat : Nat) : Int) - 8191 = v by omega]
  · -- width 3
    unfold signedVintShift at hlo
    norm_num at hlo hhi
    unfold encodeSignedVint signedVintShift
    norm_num
    simp only [parse_variable_i64]
    have hraw : (v + 1048575).toNat ≤ 2097151 := by omega
    have hd : (v + 1048575).toNat / 65536 < 32 := by omega
    rw [if_neg ((first_byte_skip (32 + (v + 1048575).toNat / 65536) (by omega)) (by omega))]
    rw [if_neg (first_byte_not_w1 (32 + (v + 1048575).toNat / 65536) (by omega))]
    rw [if_neg (first_byte_not_w2 (32 + (v + 1048575).toNat / 65536) (by omega))]
    rw [if_pos ((first_byte_w3 (32 + (v + 1048575).toNat / 65536) (by omega)) (by omega)).1]
    rw [((first_byte_w3 (32 + (v + 1048575).toNat / 65536) (by omega)) (by omega)).2]
    rw [show (32 : Nat) + (v + 1048575).toNat / 65536 - 32 =
      (v + 1048575).toNat / 65536 by omega]
    rw [parse_variable_u32_data_bytes]
    simp only [shiftSigned]
    rw [show (v + 1048575).toNat / 65536 * 256 ^ 2 + (v + 1048575).toNat % 256 ^ 2 =
      (v + 1048575).toNat by norm_num; omega]
    rw [satSubI64_eq_sub _ _ (by omega) (by omega)]
    rw [show (((v + 1048575).toNat : Nat) : Int) - 1048575 = v by omega]
  · -- width 4
    unfold signedVintShift at hlo
    norm_num at hlo hhi
    unfold encodeSignedVint signedVintShift
    norm_num
    simp only [parse_variable_i64]
    have hraw : (v + 134217727).toNat ≤ 268435455 := by omega
    have hd : (v + 134217727).toNat / 16777216 < 16 := by omega
    rw [if_neg ((first_byte_skip (16 + (v + 134217727).toNat / 16777216) (by omega))
      (by omega))]
    rw [if_neg (first_byte_not_w1 (16 + (v + 134217727).toNat / 16777216) (by omega))]
    rw [if_neg (first_byte_not_w2 (16 + (v + 134217727).toNat / 16777216) (by omega))]
    rw [if_neg (first_byte_not_w3 (16 + (v + 134217727).toNat / 16777216) (by omega))]
    rw [if_pos ((first_byte_w4 (16 + (v + 134217727).toNat / 16777216) (by omega))
      (by omega)).1]
    rw [((first_byte_w4 (16 + (v + 134217727).toNat / 16777216) (by omega)) (by omega)).2]
    rw [show (16 : Nat) + (v + 134217727).toNat / 16777216 - 16 =
      (v + 134217727).toNat / 16777216 by omega]
    rw [parse_variable_u32_data_bytes]
    simp only [shiftSigned]
    rw [show (v + 134217727).toNat / 16777216 * 256 ^ 3 + (v + 134217727).toNat % 256 ^ 3 =
      (v + 134217727).toNat by norm_num; omega]
    rw [satSubI64_eq_sub _ _ (by omega) (by omega)]
    rw [show (((v + 134217727).toNat : Nat) : Int) - 134217727 = v by omega]

/-! Lemmas about the block decoder. -/

lemma i16_min_iff (b0 b1 : Nat) (hb0 : b0 < 256) (hb1 : b1 < 256) :
    i16_from_be_bytes b0 b1 = -32768 ↔ (b0 = 128 ∧ b1 = 0) := by
  constructor
  · intro hx
    unfold i16_from_be_bytes at hx
    by_cases h : b0 * 256 + b1 < 32768
    · rw [if_pos h] at hx
      omega
    · rw [if_neg h] at hx
      omega
  · intro hx
    unfold i16_from_be_bytes
    rw [if_neg (by omega : ¬(b0 * 256 + b1 < 32768))]
    omega

lemma parse_timestamp_cons (b0 b1 : Nat) (rest : Bytes) (cts : Nat)
    (hb0 : b0 < 256) (hb1 : b1 < 256) (hmin : ¬(b0 = 128 ∧ b1 = 0)) :
    parse_timestamp (b0 :: b1 :: rest) cts =
      .ok (blockTimestamp cts (i16_from_be_bytes b0 b1), rest) := by
  unfold parse_timestamp parse_i16
  dsimp only
  rw [if_neg (fun h => hmin ((i16_min_iff b0 b1 hb0 hb1).mp h))]

lemma foldl_addU64 (l : List Nat) (a : Nat) (ha : a < u64Mod) :
    l.foldl addU64 a = (a + l.sum) % u64Mod := by
  induction l generalizing a with
  | nil => simp [Nat.mod_eq_of_lt ha]
  | cons s ss ih =>
      simp only [List.foldl_cons, List.sum_cons]
      rw [ih (addU64 a s) (by unfold addU64 u64Mod; omega)]
      unfold addU64
      rw [Nat.mod_add_mod]
      ring_nf

lemma parse_xiph_size_go_spec (k m : Nat) (hm : m < 255) (a : Nat) (rest : Bytes) :
    parse_xiph_size_go a (List.replicate k 255 ++ m :: rest) =
      .ok ((a + 255 * k + m) % u64Mod, rest) := by
  induction k generalizing a with
  | zero =>
      simp only [List.replicate, List.nil_append, parse_xiph_size_go]
      rw [if_neg (by omega)]
      unfold addU64
      norm_num
  | succ k ih =>
      rw [List.replicate_succ, List.cons_append]
      simp only [parse_xiph_size_go]
      rw [if_pos trivial, ih (addU64 a 255)]
      unfold addU64 u64Mod
      congr 2
      omega

lemma parse_xiph_frame_size_encode (s : Nat) (hs : s < u64Mod) (rest : Bytes) :
    parse_xiph_frame_size (xiphEncodeSize s ++ rest) = .ok (s, rest) := by
  unfold parse_xiph_frame_size xiphEncodeSize
  rw [List.append_assoc, List.singleton_append]
  rw [parse_xiph_size_go_spec (s / 255) (s % 255) (Nat.mod_lt _ (by norm_num)) 0 rest]
  congr 2
  have : 255 * (s / 255) + s % 255 = s := by omega
  rw [Nat.zero_add, this, Nat.mod_eq_of_lt hs]

lemma xiph_sizes_loop_table (sizes : List Nat) (h : ∀ s ∈ sizes, s < u64Mod)
    (rest : Bytes) :
    xiph_sizes_loop sizes.length (xiphTable sizes ++ rest) = .ok (sizes, rest) := by
  induction sizes with
  | nil => simp [xiph_sizes_loop, xiphTable]
  | cons s ss ih =>
      have hs : s < u64Mod := h s (by simp)
      simp only [List.length_cons, xiph_sizes_loop, xiphTable, List.map_cons,
        List.flatten_cons, List.append_assoc]
      rw [parse_xiph_frame_size_encode s hs]
      dsimp only
      rw [show (ss.map xiphEncodeSize).flatten = xiphTable ss from rfl]
      rw [ih (fun x hx => h x (by simp [hx]))]

lemma u64Mod_def : u64Mod = 18446744073709551616 := rfl

lemma u64Max_def : u64Max = 18446744073709551615 := rfl

/-- The delta relation an EBML lacing table can code: the difference of two
successive frame sizes fits a signed VINT of width at most 4. -/
def LaceDelta (a b : Nat) : Prop :=
  -(134217727 : Int) ≤ (b : Int) - (a : Int) ∧ (b : Int) - (a : Int) ≤ 134217728

lemma signedVintWidth_spec (d : Int) (hlo : -134217727 ≤ d) (hhi : d ≤ 134217728) :
    1 ≤ signedVintWidth d ∧ signedVintWidth d ≤ 4 ∧
      -signedVintShift (signedVintWidth d) ≤ d ∧
      d ≤ 2 ^ (7 * signedVintWidth d - 1) := by
  unfold signedVintWidth signedVintShift
  split_ifs with h1 h2 h3 <;>
    refine ⟨by norm_num, by norm_num, by norm_num; omega, by norm_num; omega⟩

lemma ebml_sizes_loop_deltas (ss : List Nat) : ∀ (prev : Nat), prev < u64Mod →
    (∀ s ∈ ss, s < u64Mod) → List.Chain LaceDelta prev ss →
    ∀ rest : Bytes,
      ebml_sizes_loop ss.length prev (ebmlDeltas prev ss ++ rest) = .ok (ss, rest) := by
  induction ss with
  | nil =>
      intro prev _ _ _ rest
      simp [ebml_sizes_loop, ebmlDeltas]
  | cons s ss ih =>
      intro prev hprev hss hchain rest
      rw [List.chain_cons] at hchain
      obtain ⟨⟨hd1, hd2⟩, hchain'⟩ := hchain
      have hw := signedVintWidth_spec ((s : Int) - (prev : Int)) hd1 hd2
      have hs : s < u64Mod := hss s (by simp)
      have hM := u64Mod_def
      have hX := u64Max_def
      simp only [List.length_cons, ebmlDeltas, List.append_assoc, ebml_sizes_loop]
      rw [parse_variable_i64_encodeSignedVint _ hw.1 hw.2.1 _ hw.2.2.1 hw.2.2.2]
      dsimp only
      rw [if_neg (by omega : ¬((s : Int) - (prev : Int) = -9223372036854775808))]
      have hsize : (if 0 < (s : Int) - (prev : Int) then
          satAdd64 prev ((s : Int) - (prev : Int)).natAbs
          else prev - ((s : Int) - (prev : Int)).natAbs) = s := by
        by_cases hpos : 0 < (s : Int) - (prev : Int)
        · rw [if_pos hpos, satAdd64_eq_add _ _ (by omega)]
          omega
        · rw [if_neg hpos]
          omega
      rw [hsize]
      rw [ih s hs (fun x hx => hss x (by simp [hx])) hchain' rest]

/-- Decoding a well-formed Xiph-laced block reproduces exactly the encoded
frame sizes: the first `N - 1` from the size table, the last as the
remaining payload bytes. -/
lemma parse_laced_frames_xiph_encode
    (track : Nat) (htrack : track ≤ 72057594037927934)
    (b0 b1 : Nat) (hb0 : b0 < 256) (hb1 : b1 < 256) (hbm : ¬(b0 = 128 ∧ b1 = 0))
    (flags : Nat) (hlace : (flags &&& 0x06) >>> 1 = 1)
    (is_simple : Bool) (cts hstart : Nat)
    (sizes : List Nat) (hne : sizes ≠ []) (hcnt : sizes.length ≤ 256)
    (payload : Bytes) (block_size : Nat)
    (hbs : block_size = (encodeVint track).length + 4 +
      (xiphTable sizes.dropLast).length + sizes.sum)
    (hlt : block_size < u64Mod) :
    parse_laced_frames
        (encodeVint track ++ b0 :: b1 :: flags :: (sizes.length - 1) ::
          (xiphTable sizes.dropLast ++ payload))
        block_size cts hstart is_simple =
      .ok (sizes.map fun s =>
          (⟨track, blockTimestamp cts (i16_from_be_bytes b0 b1), s,
            (flags &&& 0x08) >>> 3 == 1,
            if is_simple then some ((flags &&& 0x80) >>> 7 == 1) else none,
            if is_simple then some (flags &&& 0x01 == 1) else none⟩ : LacedFrame),
        payload) := by
  have hM := u64Mod_def
  have hX := u64Max_def
  have hlen1 : 1 ≤ sizes.length := List.length_pos.mpr hne
  have hsplit : sizes.dropLast ++ [sizes.getLast hne] = sizes :=
    List.dropLast_append_getLast hne
  have hsum : sizes.dropLast.sum + sizes.getLast hne = sizes.sum := by
    conv_rhs => rw [← hsplit]
    simp
  have hsub : ∀ s ∈ sizes.dropLast, s < u64Mod := by
    intro s hsmem
    have hmem : s ∈ sizes := List.dropLast_subset _ hsmem
    have hle : s ≤ sizes.sum := List.single_le_sum (fun _ _ => Nat.zero_le _) _ hmem
    omega
  have hinitsum : sizes.dropLast.sum ≤ sizes.sum := by omega
  unfold parse_laced_frames
  rw [parse_variable_u64_encodeVint track htrack]
  dsimp only
  rw [parse_timestamp_cons b0 b1 _ cts hb0 hb1 hbm]
  dsimp only [read_u8]
  rw [hlace]
  rw [show Lacing.fromU8 1 = Lacing.Xiph from rfl]
  rw [if_neg (by decide : ¬(Lacing.Xiph = Lacing.None))]
  rw [show laced_frame_count (sizes.length - 1) = sizes.length by
    unfold laced_frame_count
    rw [satAdd64_eq_add _ _ (by omega)]
    omega]
  dsimp only
  rw [show sizes.length - 1 = sizes.dropLast.length from (List.length_dropLast sizes).symm]
  rw [xiph_sizes_loop_table sizes.dropLast hsub payload]
  dsimp only
  rw [foldl_addU64 sizes.dropLast 0 (by omega)]
  simp only [List.length_append, List.length_cons, Nat.add_sub_cancel_left]
  rw [show (encodeVint track).length +
      ((xiphTable sizes.dropLast).length + payload.length + 1 + 1 + 1 + 1) - payload.length =
      (encodeVint track).length + 4 + (xiphTable sizes.dropLast).length by omega]
  rw [show sub64 block_size
      ((encodeVint track).length + 4 + (xiphTable sizes.dropLast).length) = sizes.sum by
    rw [sub64_eq_sub _ _ (by omega) hlt]
    omega]
  rw [show (0 + sizes.dropLast.sum) % u64Mod = sizes.dropLast.sum by
    rw [u64Mod_def]
    omega]
  rw [show sub64 sizes.sum sizes.dropLast.sum = sizes.getLast hne by
    rw [sub64_eq_sub _ _ (by omega) (by omega)]
    omega]
  conv_rhs => rw [← hsplit]
  rw [List.map_append]
  rfl

/-- Decoding a well-formed EBML-laced block with first size `s1`, delta-coded
sizes `ss` and final size `slast` reproduces exactly `s1 :: ss ++ [slast]`. -/
lemma parse_laced_frames_ebml_encode
    (track : Nat) (htrack : track ≤ 72057594037927934)
    (b0 b1 : Nat) (hb0 : b0 < 256) (hb1 : b1 < 256) (hbm : ¬(b0 = 128 ∧ b1 = 0))
    (flags : Nat) (hlace : (flags &&& 0x06) >>> 1 = 3)
    (is_simple : Bool) (cts hstart : Nat)
    (s1 : Nat) (hs1 : s1 ≤ 72057594037927934)
    (ss : List Nat) (slast : Nat) (hcnt : ss.length + 2 ≤ 256)
    (hchain : List.Chain LaceDelta s1 ss)
    (payload : Bytes) (block_size : Nat)
    (hbs : block_size = (encodeVint track).length + 4 +
      (ebmlTable (s1 :: ss)).length + (s1 :: (ss ++ [slast])).sum)
    (hlt : block_size < u64Mod) :
    parse_laced_frames
        (encodeVint track ++ b0 :: b1 :: flags :: (ss.length + 1) ::
          (ebmlTable (s1 :: ss) ++ payload))
        block_size cts hstart is_simple =
      .ok ((s1 :: (ss ++ [slast])).map fun s =>
          (⟨track, blockTimestamp cts (i16_from_be_bytes b0 b1), s,
            (flags &&& 0x08) >>> 3 == 1,
            if is_simple then some ((flags &&& 0x80) >>> 7 == 1) else none,
            if is_simple then some (flags &&& 0x01 == 1) else none⟩ : LacedFrame),
        payload) := by
  have hM := u64Mod_def
  have hX := u64Max_def
  have hssum : ∀ s ∈ ss, s ≤ ss.sum := fun s hs =>
    List.single_le_sum (fun _ _ => Nat.zero_le _) _ hs
  have hsum : (s1 :: (ss ++ [slast])).sum = s1 + ss.sum + slast := by simp; ring
  have hs1M : s1 < u64Mod := by omega
  have hssM : ∀ s ∈ ss, s < u64Mod := by
    intro s hs
    have := hssum s hs
    omega
  unfold parse_laced_frames
  rw [parse_variable_u64_encodeVint track htrack]
  dsimp only
  rw [parse_timestamp_cons b0 b1 _ cts hb0 hb1 hbm]
  dsimp only [read_u8]
  rw [hlace]
  rw [show Lacing.fromU8 3 = Lacing.Ebml from rfl]
  rw [if_neg (by decide : ¬(Lacing.Ebml = Lacing.None))]
  rw [show laced_frame_count (ss.length + 1) = ss.length + 2 by
    unfold laced_frame_count
    rw [satAdd64_eq_add _ _ (by omega)]]
  dsimp only
  rw [show ebmlTable (s1 :: ss) ++ payload =
    encodeVint s1 ++ (ebmlDeltas s1 ss ++ payload) by
    rw [ebmlTable, List.append_assoc]]
  rw [parse_variable_u64_encodeVint s1 hs1]
  dsimp only
  rw [show (if 2 < ss.length + 2 then
      ebml_sizes_loop (ss.length + 2 - 2) s1 (ebmlDeltas s1 ss ++ payload)
      else .ok ([], ebmlDeltas s1 ss ++ payload)) = Except.ok (ss, payload) by
    rcases ss with _ | ⟨s2, ss'⟩
    · rw [if_neg (by simp)]
      simp [ebmlDeltas]
    · rw [if_pos (by simp)]
      rw [show (s2 :: ss').length + 2 - 2 = (s2 :: ss').length by omega]
      exact ebml_sizes_loop_deltas (s2 :: ss') s1 hs1M hssM hchain payload]
  dsimp only
  rw [foldl_addU64 ss s1 hs1M]
  simp only [List.length_append, List.length_cons, Nat.add_sub_cancel_left]
  rw [show (encodeVint track).length +
      ((encodeVint s1).length + ((ebmlDeltas s1 ss).length + payload.length) + 1 + 1 + 1 + 1)
        - payload.length =
      (encodeVint track).length + 4 + (ebmlTable (s1 :: ss)).length by
    rw [show (ebmlTable (s1 :: ss)).length = (encodeVint s1).length + (ebmlDeltas s1 ss).length
      by rw [ebmlTable]; simp]
    omega]
  rw [show sub64 block_size
      ((encodeVint track).length + 4 + (ebmlTable (s1 :: ss)).length) =
      (s1 :: (ss ++ [slast])).sum by
    rw [sub64_eq_sub _ _ (by omega) hlt]
    omega]
  rw [show (s1 + ss.sum) % u64Mod = s1 + ss.sum by
    rw [u64Mod_def]
    omega]
  rw [show sub64 (s1 :: (ss ++ [slast])).sum (s1 + ss.sum) = slast by
    rw [sub64_eq_sub _ _ (by omega) (by omega)]
    omega]
  rw [show (s1 :: (ss ++ [slast])).map (fun s =>
      (⟨track, blockTimestamp cts (i16_from_be_bytes b0 b1), s,
        (flags &&& 0x08) >>> 3 == 1,
        if is_simple then some ((flags &&& 0x80) >>> 7 == 1) else none,
        if is_simple then some (flags &&& 0x01 == 1) else none⟩ : LacedFrame)) =
      (s1 :: ss).map (fun s =>
      (⟨track, blockTimestamp cts (i16_from_be_bytes b0 b1), s,
        (flags &&& 0x08) >>> 3 == 1,
        if is_simple then some ((flags &&& 0x80) >>> 7 == 1) else none,
        if is_simple then some (flags &&& 0x01 == 1) else none⟩ : LacedFrame)) ++
      [⟨track, blockTimestamp cts (i16_from_be_bytes b0 b1), slast,
        (flags &&& 0x08) >>> 3 == 1,
        if is_simple then some ((flags &&& 0x80) >>> 7 == 1) else none,
        if is_simple then some (flags &&& 0x01 == 1) else none⟩] by
    simp]

/-- Decoding a fixed-size-laced block with lacing-count byte `c` yields
`c + 1` frames, each of the integer-division size. -/
lemma parse_laced_frames_fixed_encode
    (track : Nat) (htrack : track ≤ 72057594037927934)
    (b0 b1 : Nat) (hb0 : b0 < 256) (hb1 : b1 < 256) (hbm : ¬(b0 = 128 ∧ b1 = 0))
    (flags : Nat) (hlace : (flags &&& 0x06) >>> 1 = 2)
    (is_simple : Bool) (cts hstart : Nat)
    (c : Nat) (hc : c ≤ 255)
    (payload : Bytes) (block_size : Nat)
    (hhdr : (encodeVint track).length + 4 ≤ block_size)
    (hlt : block_size < u64Mod) :
    parse_laced_frames
        (encodeVint track ++ b0 :: b1 :: flags :: c :: payload)
        block_size cts hstart is_simple =
      .ok (List.replicate (c + 1)
          (⟨track, blockTimestamp cts (i16_from_be_bytes b0 b1),
            (block_size - ((encodeVint track).length + 4)) / (c + 1),
            (flags &&& 0x08) >>> 3 == 1,
            if is_simple then some ((flags &&& 0x80) >>> 7 == 1) else none,
            if is_simple then some (flags &&& 0x01 == 1) else none⟩ : LacedFrame),
        payload) := by
  have hM := u64Mod_def
  have hX := u64Max_def
  unfold parse_laced_frames
  rw [parse_variable_u64_encodeVint track htrack]
  dsimp only
  rw [parse_timestamp_cons b0 b1 _ cts hb0 hb1 hbm]
  dsimp only [read_u8]
  rw [hlace]
  rw [show Lacing.fromU8 2 = Lacing.FixedSize from rfl]
  rw [if_neg (by decide : ¬(Lacing.FixedSize = Lacing.None))]
  rw [show laced_frame_count c = c + 1 by
    unfold laced_frame_count
    rw [satAdd64_eq_add _ _ (by omega)]]
  dsimp only
  simp only [List.length_append, List.length_cons, Nat.add_sub_cancel_left]
  rw [show (encodeVint track).length + (payload.length + 1 + 1 + 1 + 1) - payload.length =
    (encodeVint track).length + 4 by omega]
  rw [show sub64 block_size ((encodeVint track).length + 4) =
      block_size - ((encodeVint track).length + 4) from
    sub64_eq_sub _ _ hhdr hlt]

/-! Lemmas about the seek engine. -/

/-- After a successful narrow phase, the element stream it leaves behind
yields, as its first frame timestamp (if any), one at or after the target. -/
lemma seek_narrow_phase_next_ge (t : Nat) (stream : List SElem) :
    ∀ (cts : Nat) (s' : List SElem) (cts' : Nat),
      seek_narrow_phase t stream cts = .ok (s', cts') →
      ∀ ts, next_frame_scan s' cts' = .ok (some ts) → t ≤ ts := by
  induction stream with
  | nil =>
      intro cts s' cts' h ts hf
      simp only [seek_narrow_phase, Except.ok.injEq, Prod.mk.injEq] at h
      obtain ⟨h1, h2⟩ := h
      subst h1
      subst h2
      simp [next_frame_scan] at hf
  | cons e rest ih =>
      intro cts s' cts' h ts hf
      cases e with
      | cluster =>
          simp only [seek_narrow_phase] at h
          exact ih cts s' cts' h ts hf
      | timestamp tn =>
          simp only [seek_narrow_phase] at h
          exact ih tn s' cts' h ts hf
      | otherElem =>
          simp only [seek_narrow_phase] at h
          exact ih cts s' cts' h ts hf
      | blockElem probe laceErr =>
          simp only [seek_narrow_phase] at h
          cases probe with
          | error e => simp at h
          | ok rel =>
              dsimp only at h
              by_cases hlt : blockTimestamp cts rel < t
              · rw [if_pos hlt] at h
                exact ih cts s' cts' h ts hf
              · rw [if_neg hlt] at h
                simp only [Except.ok.injEq, Prod.mk.injEq] at h
                obtain ⟨h1, h2⟩ := h
                subst h1
                subst h2
                simp only [next_frame_scan] at hf
                cases laceErr with
                | some e => simp at hf
                | none =>
                    simp only [Except.ok.injEq, Option.some.injEq] at hf
                    omega
      | errElem e =>
          simp only [seek_narrow_phase] at h
          by_cases hio : sourceIsIo e
          · rw [if_pos hio] at h
            simp only [Except.ok.injEq, Prod.mk.injEq] at h
            obtain ⟨h1, h2⟩ := h
            subst h1
            subst h2
            simp only [next_frame_scan] at hf
            rw [if_pos hio] at hf
            simp at hf
          · rw [if_neg hio] at h
            simp at h

/-- Rust's binary search, characterized on a strictly time-sorted cue list:
with correct bracketing invariants the loop either finds an exact hit or
returns the insertion point. -/
lemma binary_search_go_spec (ps : List CuePointRec) (t : Nat)
    (hsorted : ∀ i j, i < j → j < ps.length →
      (ps.getD i default).time < (ps.getD j default).time) :
    ∀ fuel l r, r ≤ ps.length → l ≤ r → r - l < fuel →
      (∀ i, i < l → (ps.getD i default).time < t) →
      (∀ i, r ≤ i → i < ps.length → t < (ps.getD i default).time) →
      (match binary_search_go ps t fuel l r with
       | .found m => m < ps.length ∧ (ps.getD m default).time = t
       | .notFound p => p ≤ ps.length ∧ (∀ i, i < p → (ps.getD i default).time < t) ∧
           (∀ i, p ≤ i → i < ps.length → t < (ps.getD i default).time)) := by
  intro fuel
  induction fuel with
  | zero =>
      intro l r _ _ hfuel _ _
      omega
  | succ fuel ih =>
      intro l r hr hlr hfuel hlo hhi
      by_cases hcmp : l < r
      · simp only [binary_search_go]
        rw [if_pos hcmp]
        have hmid1 : l ≤ l + (r - l) / 2 := by omega
        have hmid2 : l + (r - l) / 2 < r := by omega
        by_cases h1 : (ps.getD (l + (r - l) / 2) default).time < t
        · rw [if_pos h1]
          have := ih (l + (r - l) / 2 + 1) r hr (by omega) (by omega)
            (fun i hi => by
              by_cases hcase : i < l + (r - l) / 2
              · exact lt_trans (hsorted i (l + (r - l) / 2) hcase (by omega)) h1
              · have : i = l + (r - l) / 2 := by omega
                rw [this]
                exact h1)
            hhi
          exact this
        · rw [if_neg h1]
          by_cases h2 : t < (ps.getD (l + (r - l) / 2) default).time
          · rw [if_pos h2]
            have := ih l (l + (r - l) / 2) (by omega) (by omega) (by omega) hlo
              (fun i hi1 hi2 => by
                by_cases hcase : l + (r - l) / 2 < i
                · exact lt_trans h2 (hsorted (l + (r - l) / 2) i hcase hi2)
                · have : i = l + (r - l) / 2 := by omega
                  rw [this]
                  exact h2)
            exact this
          · rw [if_neg h2]
            exact ⟨by omega, by omega⟩
      · simp only [binary_search_go]
        rw [if_neg hcmp]
        exact ⟨by omega, fun i hi => hlo i (by omega), fun i hi1 hi2 => hhi i (by omega) hi2⟩

lemma get?_eq_some_getD (ps : List CuePointRec) (i : Nat) (hi : i < ps.length) :
    ps.get? i = some (ps.getD i default) := by
  rw [List.getD_eq_get?]
  cases h : ps.get? i with
  | none => exact absurd (List.get?_eq_none.mp h) (by omega)
  | some a => rfl

/-- The cue fast path on a strictly time-sorted cue list: when index `i` is
the greatest one whose time is at most the target, the fast path selects
exactly that cue point. -/
lemma seek_broad_phase_cue_found (ps : List CuePointRec) (t : Nat)
    (hsorted : ∀ i j, i < j → j < ps.length →
      (ps.getD i default).time < (ps.getD j default).time)
    (i : Nat) (hi : i < ps.length) (hle : (ps.getD i default).time ≤ t)
    (hmax : ∀ j, i < j → j < ps.length → t < (ps.getD j default).time) :
    seek_broad_phase_cue ps t =
      (match (ps.getD i default).track_position.relative_position with
       | some rp => .relativePos rp
       | none => .clusterPos (ps.getD i default).track_position.cluster_position) := by
  have hspec := binary_search_go_spec ps t hsorted (ps.length + 1) 0 ps.length le_rfl
    (Nat.zero_le _) (by omega) (fun j hj => by omega)
    (fun j hj1 hj2 => absurd hj2 (by omega))
  unfold seek_broad_phase_cue binary_search_by_time
  cases hres : binary_search_go ps t (ps.length + 1) 0 ps.length with
  | found m =>
      rw [hres] at hspec
      obtain ⟨hm, hmt⟩ := hspec
      have him : m = i := by
        by_contra hne
        rcases Nat.lt_or_ge m i with hlt | hge
        · have := hsorted m i hlt hi
          omega
        · have hmi : i < m := by omega
          have := hmax m hmi hm
          omega
      subst him
      dsimp only
      rw [get?_eq_some_getD ps m hi]
      dsimp only
      rw [if_pos hle]
  | notFound p =>
      rw [hres] at hspec
      obtain ⟨hp, hlow, hhigh⟩ := hspec
      have hip : i < p := by
        by_contra hcon
        have hpi : p ≤ i := by omega
        have := hhigh i hpi hi
        omega
      have hpi : p - 1 = i := by
        by_contra hcon
        have hlt : i < p - 1 := by omega
        have h1 := hlow (p - 1) (by omega)
        have h2 := hmax (p - 1) hlt (by omega)
        omega
      dsimp only
      rw [hpi]
      rw [get?_eq_some_getD ps i hi]
      dsimp only
      rw [if_pos hle]

/-- The cue fast path on a strictly time-sorted, non-empty cue list whose
first time is already past the target: the probe misses and the broad phase
falls through to the linear cluster scan. -/
lemma seek_broad_phase_cue_fall (ps : List CuePointRec) (t : Nat)
    (hsorted : ∀ i j, i < j → j < ps.length →
      (ps.getD i default).time < (ps.getD j default).time)
    (hne : ps ≠ []) (h0 : t < (ps.getD 0 default).time) :
    seek_broad_phase_cue ps t = .fallthrough := by
  have hlen : 0 < ps.length := List.length_pos.mpr hne
  have hall : ∀ j, j < ps.length → t < (ps.getD j default).time := by
    intro j hj
    rcases Nat.eq_zero_or_pos j with rfl | hpos
    · exact h0
    · exact lt_trans h0 (hsorted 0 j hpos hj)
  have hspec := binary_search_go_spec ps t hsorted (ps.length + 1) 0 ps.length le_rfl
    (Nat.zero_le _) (by omega) (fun j hj => by omega)
    (fun j hj1 hj2 => absurd hj2 (by omega))
  unfold seek_broad_phase_cue binary_search_by_time
  cases hres : binary_search_go ps t (ps.length + 1) 0 ps.length with
  | found m =>
      rw [hres] at hspec
      obtain ⟨hm, hmt⟩ := hspec
      have := hall m hm
      omega
  | notFound p =>
      rw [hres] at hspec
      obtain ⟨hp, hlow, hhigh⟩ := hspec
      have hp0 : p = 0 := by
        by_contra hcon
        have := hlow 0 (by omega)
        have := hall 0 hlen
        omega
      subst hp0
      dsimp only
      rw [get?_eq_some_getD ps 0 hlen]
      dsimp only
      rw [if_neg (by omega)]

lemma beBytesToNat_lt (xs : List Nat) (h : ∀ b ∈ xs, b < 256) :
    beBytesToNat xs < 256 ^ xs.length := by
  induction xs with
  | nil => simp [beBytesToNat]
  | cons x xs ih =>
      rw [beBytesToNat_cons, List.length_cons]
      have hx : x < 256 := h x (by simp)
      have hxs := ih (fun b hb => h b (by simp [hb]))
      calc x * 256 ^ xs.length + beBytesToNat xs
          < x * 256 ^ xs.length + 256 ^ xs.length := Nat.add_lt_add_left hxs _
        _ = (x + 1) * 256 ^ xs.length := by ring
        _ ≤ 256 * 256 ^ xs.length := Nat.mul_le_mul_right _ (by omega)
        _ = 256 ^ (xs.length + 1) := by ring

/-- A well-formed width-`N` signed VINT (`N ∈ [1,4]`) decodes to the value
the unsigned width rules give the masked bytes, minus the width's range
shift `2^(7N-1) - 1`. -/
lemma parse_variable_i64_wellformed (N : Nat) (hN1 : 1 ≤ N) (hN4 : N ≤ 4)
    (fb : Nat) (hfb1 : 2 ^ (8 - N) ≤ fb) (hfb2 : fb < 2 ^ (9 - N))
    (data : Bytes) (hlen : data.length = N - 1) (hdata : ∀ b ∈ data, b < 256)
    (rest : Bytes) :
    parse_variable_i64 ((fb :: data) ++ rest) =
      .ok (((beBytesToNat ((fb - 2 ^ (8 - N)) :: data) : Nat) : Int) - signedVintShift N,
        rest) := by
  interval_cases N
  · -- width 1
    norm_num at hfb1 hfb2 hlen ⊢
    subst hlen
    simp only [List.cons_append, List.nil_append, parse_variable_i64]
    rw [if_neg ((first_byte_skip fb (by omega)) (by omega))]
    rw [if_pos ((first_byte_w1 fb (by omega)) (by omega)).1]
    rw [((first_byte_w1 fb (by omega)) (by omega)).2]
    rw [satSubI64_eq_sub _ _ (by omega) (by omega)]
    rw [show beBytesToNat [fb - 128] = fb - 128 by simp [beBytesToNat]]
    rw [show signedVintShift 1 = 63 from rfl]
  · -- width 2
    norm_num at hfb1 hfb2 hlen ⊢
    have hraw := beBytesToNat_lt ((fb - 64) :: data) (by
      intro b hb
      rcases List.mem_cons.mp hb with rfl | hmem
      · omega
      · exact hdata b hmem)
    rw [List.length_cons, hlen] at hraw
    norm_num at hraw
    simp only [List.cons_append, parse_variable_i64]
    rw [if_neg ((first_byte_skip fb (by omega)) (by omega))]
    rw [if_neg (first_byte_not_w1 fb (by omega))]
    rw [if_pos ((first_byte_w2 fb (by omega)) (by omega)).1]
    rw [((first_byte_w2 fb (by omega)) (by omega)).2]
    rw [show (1 : Nat) = data.length from hlen.symm]
    rw [parse_variable_u32_data_append]
    dsimp only [shiftSigned]
    rw [satSubI64_eq_sub _ _ (by omega) (by omega)]
    rw [show signedVintShift 2 = 8191 from rfl]
  · -- width 3
    norm_num at hfb1 hfb2 hlen ⊢
    have hraw := beBytesToNat_lt ((fb - 32) :: data) (by
      intro b hb
      rcases List.mem_cons.mp hb with rfl | hmem
      · omega
      · exact hdata b hmem)
    rw [List.length_cons, hlen] at hraw
    norm_num at hraw
    simp only [List.cons_append, parse_variable_i64]
    rw [if_neg ((first_byte_skip fb (by omega)) (by omega))]
    rw [if_neg (first_byte_not_w1 fb (by omega))]
    rw [if_neg (first_byte_not_w2 fb (by omega))]
    rw [if_pos ((first_byte_w3 fb (by omega)) (by omega)).1]
    rw [((first_byte_w3 fb (by omega)) (by omega)).2]
    rw [show (2 : Nat) = data.length from hlen.symm]
    rw [parse_variable_u32_data_append]
    dsimp only [shiftSigned]
    rw [satSubI64_eq_sub _ _ (by omega) (by omega)]
    rw [show signedVintShift 3 = 1048575 from rfl]
  · -- width 4
    norm_num at hfb1 hfb2 hlen ⊢
    have hraw := beBytesToNat_lt ((fb - 16) :: data) (by
      intro b hb
      rcases List.mem_cons.mp hb with rfl | hmem
      · omega
      · exact hdata b hmem)
    rw [List.length_cons, hlen] at hraw
    norm_num at hraw
    simp only [List.cons_append, parse_variable_i64]
    rw [if_neg ((first_byte_skip fb (by omega)) (by omega))]
    rw [if_neg (first_byte_not_w1 fb (by omega))]
    rw [if_neg (first_byte_not_w2 fb (by omega))]
    rw [if_neg (first_byte_not_w3 fb (by omega))]
    rw [if_pos ((first_byte_w4 fb (by omega)) (by omega)).1]
    rw [((first_byte_w4 fb (by omega)) (by omega)).2]
    rw [show (3 : Nat) = data.length from hlen.symm]
    rw [parse_variable_u32_data_append]
    dsimp only [shiftSigned]
    rw [satSubI64_eq_sub _ _ (by omega) (by omega)]
    rw [show signedVintShift 4 = 134217727 from rfl]

/-! Lemmas about the EBML header binder. -/

/-- Behavior of `EbmlHeader::new`, evaluated once all seven field lookups are known: the
four validation checks run in source order on the looked-up values. -/
lemma ebml_header_new_eval (fields : Fields) (v rv : Option Nat)
    (mi ms dtv dtrv : Nat) (dt : String)
    (hv : try_find_unsigned fields .EbmlVersion = .ok v)
    (hrv : try_find_unsigned fields .EbmlReadVersion = .ok rv)
    (hmi : find_unsigned_or fields .EbmlMaxIdLength 4 = .ok mi)
    (hms : find_unsigned_or fields .EbmlMaxSizeLength 8 = .ok ms)
    (hdt : find_string fields .DocType = .ok dt)
    (hdtv : find_unsigned fields .DocTypeVersion = .ok dtv)
    (hdtrv : find_unsigned fields .DocTypeReadVersion = .ok dtrv) :
    EbmlHeader.new fields =
      (if trim_end_nul dt ≠ "matroska" ∧ trim_end_nul dt ≠ "webm" then
        .error (.InvalidEbmlHeader ("unsupported DocType: " ++ dt))
      else if 4 ≤ dtrv then
        .error (.InvalidEbmlHeader ("unsupported DocTypeReadVersion: " ++ toString dtrv))
      else if 4 < mi then
        .error (.InvalidEbmlHeader ("unsupported MaxIdLength: " ++ toString mi))
      else if 8 < ms then
        .error (.InvalidEbmlHeader ("unsupported MaxSizeLength: " ++ toString ms))
      else .ok ⟨v, rv, mi, ms, dt, dtv, dtrv⟩) := by
  unfold EbmlHeader.new
  rw [hv]
  dsimp only
  rw [hrv]
  dsimp only
  rw [hmi]
  dsimp only
  rw [hms]
  dsimp only
  rw [hdt]
  dsimp only
  rw [hdtv]
  dsimp only
  rw [hdtrv]
  dsimp only
  rfl

/-! Claim theorems. -/

/-- C1: for every container file (modelled as its stream of `next_element`
outcomes), every starting cluster timestamp and every seek target `t`, if
the narrow phase of `seek(t)` returns successfully, then whenever the
subsequent `next_frame` call produces a frame, that first frame's timestamp
is `≥ t`; in every other case that `next_frame` call returns `false`
(end of stream) or an error, producing no frame. -/
theorem seek_then_next_frame_timestamp_ge (t : Nat) (stream : List SElem) (cts : Nat)
    (s' : List SElem) (cts' : Nat)
    (hseek : seek_narrow_phase t stream cts = .ok (s', cts'))
    (ts : Nat) (hframe : next_frame_scan s' cts' = .ok (some ts)) :
    t ≤ ts :=
  seek_narrow_phase_next_ge t stream cts s' cts' hseek ts hframe

/-- C1 witness: seeking to 3 in a stream with cluster timestamp 5 and a
block at relative offset 2 stops before that block, and `next_frame` then
yields its frame with timestamp 7 ≥ 3. -/
theorem seek_then_next_frame_timestamp_ge_witness : (3 : Nat) ≤ 7 :=
  seek_then_next_frame_timestamp_ge 3 [.timestamp 5, .blockElem (.ok 2) none] 0
    [.blockElem (.ok 2) none] 5 rfl 7 rfl

/-- C2 (amended): within `next_frame`, an element-read error is mapped to
`Ok(false)` (end of stream) exactly when its `source()` is a wrapped
`std::io::Error` — of any kind, end-of-file or not; every error that does
not wrap a `std::io::Error` is propagated unchanged. -/
theorem next_frame_scan_error_mapping (e : DemuxError) (rest : List SElem) (cts : Nat) :
    (next_frame_scan (.errElem e :: rest) cts = .ok none ↔ ∃ k, e = .IoError k)
    ∧ (next_frame_scan (.errElem e :: rest) cts = .error e ↔ ¬∃ k, e = .IoError k) := by
  have hio : sourceIsIo e = true ↔ ∃ k, e = .IoError k := by
    cases e <;> simp [sourceIsIo, DemuxError.source, SourceError.isIo]
  simp only [next_frame_scan]
  by_cases hs : sourceIsIo e
  · rw [if_pos hs]
    constructor
    · exact ⟨fun _ => hio.mp hs, fun _ => rfl⟩
    · constructor
      · intro h
        exact absurd h (by simp)
      · intro h
        exact absurd (hio.mp hs) h
  · rw [if_neg hs]
    constructor
    · constructor
      · intro h
        exact absurd h (by simp)
      · intro h
        exact absurd (hio.mpr h) hs
    · exact ⟨fun _ h => absurd (hio.mpr h) hs, fun _ => rfl⟩

/-- C2 witness: an end-of-file I/O error is mapped to `Ok(false)`. -/
theorem next_frame_scan_error_mapping_witness :
    next_frame_scan [.errElem (.IoError .UnexpectedEof)] 0 = .ok none :=
  (next_frame_scan_error_mapping (.IoError .UnexpectedEof) [] 0).1.mpr ⟨_, rfl⟩

/-- C2 counterexample: an I/O error whose kind is not end-of-file
(`PermissionDenied`) is also mapped to `Ok(false)` rather than being
propagated, contradicting the claim as stated. -/
theorem next_frame_scan_non_eof_io_cex :
    next_frame_scan [.errElem (.IoError .PermissionDenied)] 0 = .ok none
    ∧ next_frame_scan [.errElem (.IoError .PermissionDenied)] 0 ≠
        .error (.IoError .PermissionDenied) := by
  constructor
  · rfl
  · intro h
    rw [show next_frame_scan [.errElem (.IoError .PermissionDenied)] 0 = .ok none from rfl]
      at h
    exact Except.noConfusion h

/-- C3: decoding the two-byte EBML data size whose value bits are all ones
(`0x7F 0xFF`) yields the numeric value `2^14 - 1 = 16383`, not the
unknown-size sentinel `u64::MAX`; only the one-byte pattern `0xFF` yields
the sentinel.  This evaluates the code at the claim's failing input. -/
theorem parse_variable_u64_two_byte_all_ones :
    parse_variable_u64 [0x7F, 0xFF] = .ok (16383, [])
    ∧ (16383 : Nat) ≠ u64Max
    ∧ parse_variable_u64 [0xFF] = .ok (u64Max, []) :=
  ⟨rfl, by norm_num [u64Max], rfl⟩

/-- C4 (amended): on a strictly time-sorted cue list, the cue fast path of
the broad phase selects the cue point at the greatest index whose time is
`≤ target` and returns its `cluster_position` (or, when the point carries a
`relative_position`, takes the relative-position path instead); when no cue
point has time `≤ target`, the fast path is not taken and the broad phase
falls through to the linear cluster scan. -/
theorem seek_broad_phase_cue_selection (ps : List CuePointRec) (t : Nat)
    (hsorted : ∀ i j, i < j → j < ps.length →
      (ps.getD i default).time < (ps.getD j default).time) :
    (∀ i, i < ps.length → (ps.getD i default).time ≤ t →
      (∀ j, i < j → j < ps.length → t < (ps.getD j default).time) →
      (ps.getD i default).track_position.relative_position = none →
      seek_broad_phase_cue ps t =
        .clusterPos (ps.getD i default).track_position.cluster_position)
    ∧ (ps ≠ [] → t < (ps.getD 0 default).time →
      seek_broad_phase_cue ps t = .fallthrough) := by
  constructor
  · intro i hi hle hmax hrel
    rw [seek_broad_phase_cue_found ps t hsorted i hi hle hmax, hrel]
  · intro hne h0
    exact seek_broad_phase_cue_fall ps t hsorted hne h0

/-- C4 witness: with cue times `[0, 100]` and target 150, the fast path
returns the cluster position of the cue point at index 1. -/
theorem seek_broad_phase_cue_selection_witness :
    seek_broad_phase_cue
      [⟨0, ⟨1, 10, none, none, none⟩⟩, ⟨100, ⟨1, 20, none, none, none⟩⟩] 150 =
      .clusterPos 20 :=
  (seek_broad_phase_cue_selection
    [⟨0, ⟨1, 10, none, none, none⟩⟩, ⟨100, ⟨1, 20, none, none, none⟩⟩] 150
    (by
      intro i j hij hj
      have hj1 : j = 1 := by
        simp only [List.length_cons, List.length_nil] at hj
        omega
      have hi0 : i = 0 := by omega
      subst hj1
      subst hi0
      norm_num)).1 1 (by norm_num) (by norm_num)
    (by
      intro j h1 h2
      simp only [List.length_cons, List.length_nil] at h2
      omega) rfl

/-- C4 counterexample: with a single cue point at time 10 and target 5 (so
no cue point has time `≤ target`), the broad phase falls through to the
linear cluster scan; it does not use the cue point at index 0 (whose
cluster position is 100), contradicting the claim as stated. -/
theorem seek_broad_phase_cue_no_le_cex :
    seek_broad_phase_cue [⟨10, ⟨1, 100, none, none, none⟩⟩] 5 = .fallthrough
    ∧ seek_broad_phase_cue [⟨10, ⟨1, 100, none, none, none⟩⟩] 5 ≠ .clusterPos 100 := by
  constructor
  · rfl
  · intro h
    rw [show seek_broad_phase_cue [⟨10, ⟨1, 100, none, none, none⟩⟩] 5 = .fallthrough
      from rfl] at h
    exact BroadPhaseCue.noConfusion h

/-- C9: the laced frame count — the lacing-count byte plus one, computed
with `u64` saturating addition inside `parse_laced_frames` — is at least 1
for every byte value (indeed for every natural number), so the integer
division by `frame_count` in the fixed-size lacing branch never divides by
zero. -/
theorem laced_frame_count_pos : ∀ c : Nat, 0 < laced_frame_count c := by
  intro c
  have := u64Max_def
  unfold laced_frame_count satAdd64
  omega

/-- C5: (i) every well-formed `N`-byte signed VINT (`N ∈ [1,4]`) decodes to
the value given by the unsigned width rules (marker-masked first byte
concatenated big-endian with the payload bytes) minus the width's range
shift `2^(7N-1) - 1`; (ii) those shifts are 63, 8191, 1048575 and
134217727; (iii) encoding any value of a width's range as a signed VINT of
that width and decoding it is the identity. -/
theorem signed_vint_decode_and_roundtrip :
    (∀ N, 1 ≤ N → N ≤ 4 → ∀ fb, 2 ^ (8 - N) ≤ fb → fb < 2 ^ (9 - N) →
      ∀ data : Bytes, data.length = N - 1 → (∀ b ∈ data, b < 256) → ∀ rest,
      parse_variable_i64 ((fb :: data) ++ rest) =
        .ok (((beBytesToNat ((fb - 2 ^ (8 - N)) :: data) : Nat) : Int) - signedVintShift N,
          rest))
    ∧ (signedVintShift 1 = 63 ∧ signedVintShift 2 = 8191 ∧
        signedVintShift 3 = 1048575 ∧ signedVintShift 4 = 134217727)
    ∧ (∀ N, 1 ≤ N → N ≤ 4 → ∀ v : Int, -signedVintShift N ≤ v → v ≤ 2 ^ (7 * N - 1) →
      ∀ rest, parse_variable_i64 (encodeSignedVint N v ++ rest) = .ok (v, rest)) :=
  ⟨fun N h1 h4 fb hf1 hf2 data hlen hdata rest =>
      parse_variable_i64_wellformed N h1 h4 fb hf1 hf2 data hlen hdata rest,
    ⟨rfl, rfl, rfl, rfl⟩,
    fun N h1 h4 v hlo hhi rest =>
      parse_variable_i64_encodeSignedVint N h1 h4 v hlo hhi rest⟩

/-- C5 witness: the Matroska documentation example — the two-byte signed
VINT `0x5E 0xD3` decodes to `0x1ED3 - 8191 = -300`, and re-encoding `-300`
at width 2 decodes back to `-300`. -/
theorem signed_vint_decode_and_roundtrip_witness :
    parse_variable_i64 ((0x5E :: [0xD3]) ++ []) =
      .ok (((beBytesToNat ((0x5E - 2 ^ (8 - 2)) :: [0xD3]) : Nat) : Int) -
        signedVintShift 2, [])
    ∧ parse_variable_i64 (encodeSignedVint 2 (-300) ++ []) = .ok (-300, []) :=
  ⟨signed_vint_decode_and_roundtrip.1 2 (by norm_num) (by norm_num) 0x5E (by norm_num)
      (by norm_num) [0xD3] rfl (by decide) [],
    signed_vint_decode_and_roundtrip.2.2 2 (by norm_num) (by norm_num) (-300)
      (by norm_num [signedVintShift]) (by norm_num) []⟩

/-- C6 (amended): decoding a block whose lacing table encodes the first
`N - 1` of the frame sizes `s1..sN` yields exactly `N` queued frames with
sizes `s1..sN` (the last being the remaining body bytes after the table) —
for Xiph lacing for every `N ∈ [1, 256]`, and for EBML lacing for every
`N ∈ [2, 256]` whose size deltas fit signed VINTs and whose first size fits
an unsigned VINT.  (For `N = 1`, EBML lacing is decoded incorrectly: the
decoder unconditionally reads a first-size VINT that the format does not
code — see the counterexample.) -/
theorem laced_sizes_roundtrip :
    (∀ track, track ≤ 72057594037927934 →
      ∀ b0 b1, b0 < 256 → b1 < 256 → ¬(b0 = 128 ∧ b1 = 0) →
      ∀ flags, (flags &&& 0x06) >>> 1 = 1 →
      ∀ (is_simple : Bool) (cts hstart : Nat) (sizes : List Nat),
      sizes ≠ [] → sizes.length ≤ 256 →
      ∀ (payload : Bytes) (block_size : Nat),
      block_size = (encodeVint track).length + 4 +
        (xiphTable sizes.dropLast).length + sizes.sum →
      block_size < u64Mod →
      (parse_laced_frames
          (encodeVint track ++ b0 :: b1 :: flags :: (sizes.length - 1) ::
            (xiphTable sizes.dropLast ++ payload))
          block_size cts hstart is_simple).map
        (fun p => (p.1.map LacedFrame.size, p.2)) = .ok (sizes, payload))
    ∧ (∀ track, track ≤ 72057594037927934 →
      ∀ b0 b1, b0 < 256 → b1 < 256 → ¬(b0 = 128 ∧ b1 = 0) →
      ∀ flags, (flags &&& 0x06) >>> 1 = 3 →
      ∀ (is_simple : Bool) (cts hstart : Nat) (s1 : Nat),
      s1 ≤ 72057594037927934 →
      ∀ (ss : List Nat) (slast : Nat), ss.length + 2 ≤ 256 →
      List.Chain LaceDelta s1 ss →
      ∀ (payload : Bytes) (block_size : Nat),
      block_size = (encodeVint track).length + 4 +
        (ebmlTable (s1 :: ss)).length + (s1 :: (ss ++ [slast])).sum →
      block_size < u64Mod →
      (parse_laced_frames
          (encodeVint track ++ b0 :: b1 :: flags :: (ss.length + 1) ::
            (ebmlTable (s1 :: ss) ++ payload))
          block_size cts hstart is_simple).map
        (fun p => (p.1.map LacedFrame.size, p.2)) = .ok (s1 :: (ss ++ [slast]), payload)) := by
  constructor
  · intro track htrack b0 b1 hb0 hb1 hbm flags hlace is_simple cts hstart sizes hne hcnt
      payload block_size hbs hlt
    rw [parse_laced_frames_xiph_encode track htrack b0 b1 hb0 hb1 hbm flags hlace
      is_simple cts hstart sizes hne hcnt payload block_size hbs hlt]
    simp [Except.map, List.map_map]
    exact List.map_id' sizes
  · intro track htrack b0 b1 hb0 hb1 hbm flags hlace is_simple cts hstart s1 hs1 ss slast
      hcnt hchain payload block_size hbs hlt
    rw [parse_laced_frames_ebml_encode track htrack b0 b1 hb0 hb1 hbm flags hlace
      is_simple cts hstart s1 hs1 ss slast hcnt hchain payload block_size hbs hlt]
    simp [Except.map, List.map_map]
    exact List.map_id' ss

/-- C6 witness: the Matroska documentation example — three Xiph-laced frames
of sizes 800, 500 and 765 are recovered exactly from the size table
`FF FF FF 23  FF F5`. -/
theorem laced_sizes_roundtrip_witness :
    (parse_laced_frames
        (encodeVint 1 ++ 0 :: 0 :: 0x02 :: (([800, 500, 765] : List Nat).length - 1) ::
          (xiphTable ([800, 500, 765] : List Nat).dropLast ++ []))
        2076 0 0 false).map
      (fun p => (p.1.map LacedFrame.size, p.2)) = .ok (([800, 500, 765] : List Nat), []) :=
  laced_sizes_roundtrip.1 1 (by norm_num) 0 0 (by norm_num) (by norm_num) (by norm_num)
    0x02 (by decide) false 0 0 [800, 500, 765] (by simp) (by norm_num) []
    2076 (by decide) (by decide)

/-- C6 counterexample: a one-frame EBML-laced block (lacing-count byte 0,
empty size table, three payload bytes `82 AA BB`, so `s1 = 3`) is decoded
into two frames of sizes 2 and 0 — the decoder reads the first payload
byte `0x82` as a first-size VINT — instead of the one frame of size 3 the
claim requires. -/
theorem ebml_lacing_single_frame_cex :
    (parse_laced_frames [0x81, 0x00, 0x00, 0x06, 0x00, 0x82, 0xAA, 0xBB] 8 0 0 false).map
      (fun p => (p.1.map LacedFrame.size, p.2)) = .ok ([2, 0], [0xAA, 0xBB])
    ∧ ([2, 0] : List Nat) ≠ [3] := by
  constructor
  · rfl
  · simp

/-- C7: decoding a fixed-size-laced block with lacing-count byte `c` (so
`frame_count = c + 1`) and `body_bytes` remaining payload bytes yields
exactly `c + 1` queued frames, each of size `body_bytes / (c + 1)` (integer
division, residual bytes dropped). -/
theorem fixed_lacing_frame_sizes
    (track : Nat) (htrack : track ≤ 72057594037927934)
    (b0 b1 : Nat) (hb0 : b0 < 256) (hb1 : b1 < 256) (hbm : ¬(b0 = 128 ∧ b1 = 0))
    (flags : Nat) (hlace : (flags &&& 0x06) >>> 1 = 2)
    (is_simple : Bool) (cts hstart : Nat)
    (c : Nat) (hc : c ≤ 255)
    (payload : Bytes) (block_size : Nat)
    (hhdr : (encodeVint track).length + 4 ≤ block_size)
    (hlt : block_size < u64Mod) :
    (parse_laced_frames
        (encodeVint track ++ b0 :: b1 :: flags :: c :: payload)
        block_size cts hstart is_simple).map
      (fun p => (p.1.map LacedFrame.size, p.2)) =
      .ok (List.replicate (c + 1)
        ((block_size - ((encodeVint track).length + 4)) / (c + 1)), payload) := by
  rw [parse_laced_frames_fixed_encode track htrack b0 b1 hb0 hb1 hbm flags hlace
    is_simple cts hstart c hc payload block_size hhdr hlt]
  simp [Except.map, List.map_replicate]

/-- C7 witness: a fixed-size-laced block with count byte 2 and nine body
bytes decodes to three frames of size 3. -/
theorem fixed_lacing_frame_sizes_witness :
    (parse_laced_frames
        (encodeVint 1 ++ 0 :: 0 :: 0x04 :: 2 :: [1, 2, 3, 4, 5, 6, 7, 8, 9])
        14 0 0 true).map
      (fun p => (p.1.map LacedFrame.size, p.2)) =
      .ok (List.replicate 3 3, [1, 2, 3, 4, 5, 6, 7, 8, 9]) := by
  have h := fixed_lacing_frame_sizes 1 (by norm_num) 0 0 (by norm_num) (by norm_num)
    (by norm_num) 0x04 (by decide) true 0 0 2 (by norm_num)
    [1, 2, 3, 4, 5, 6, 7, 8, 9] 14 (by decide) (by decide)
  rw [h]
  rfl

/-- C8: given well-typed header fields, binding the EBML header fails with
`InvalidEbmlHeader` whenever `max_id_length > 4`, `max_size_length > 8`,
`doc_type_read_version ≥ 4`, or the NUL-right-trimmed doc type is neither
"matroska" nor "webm"; and it succeeds whenever none of these hold — in
particular a doc type of "webm" padded with trailing NUL bytes is
accepted. -/
theorem ebml_header_validation (fields : Fields) (v rv : Option Nat)
    (mi ms dtv dtrv : Nat) (dt : String)
    (hv : try_find_unsigned fields .EbmlVersion = .ok v)
    (hrv : try_find_unsigned fields .EbmlReadVersion = .ok rv)
    (hmi : find_unsigned_or fields .EbmlMaxIdLength 4 = .ok mi)
    (hms : find_unsigned_or fields .EbmlMaxSizeLength 8 = .ok ms)
    (hdt : find_string fields .DocType = .ok dt)
    (hdtv : find_unsigned fields .DocTypeVersion = .ok dtv)
    (hdtrv : find_unsigned fields .DocTypeReadVersion = .ok dtrv) :
    ((4 < mi ∨ 8 < ms ∨ 4 ≤ dtrv ∨
        (trim_end_nul dt ≠ "matroska" ∧ trim_end_nul dt ≠ "webm")) →
      ∃ msg, EbmlHeader.new fields = .error (.InvalidEbmlHeader msg))
    ∧ ((mi ≤ 4 ∧ ms ≤ 8 ∧ dtrv < 4 ∧
        (trim_end_nul dt = "matroska" ∨ trim_end_nul dt = "webm")) →
      EbmlHeader.new fields = .ok ⟨v, rv, mi, ms, dt, dtv, dtrv⟩) := by
  rw [ebml_header_new_eval fields v rv mi ms dtv dtrv dt hv hrv hmi hms hdt hdtv hdtrv]
  constructor
  · intro hbad
    split_ifs with h1 h2 h3 h4
    · exact ⟨_, rfl⟩
    · exact ⟨_, rfl⟩
    · exact ⟨_, rfl⟩
    · exact ⟨_, rfl⟩
    · exfalso
      rcases hbad with h | h | h | h
      · omega
      · omega
      · omega
      · exact h1 h
  · rintro ⟨h1, h2, h3, h4⟩
    split_ifs with c1 c2 c3 c4
    · exfalso
      rcases h4 with h | h
      · exact c1.1 h
      · exact c1.2 h
    · omega
    · omega
    · omega
    · rfl

/-- C8 witness: a header with `max_id_length = 5` is rejected with
`InvalidEbmlHeader`, and a header whose doc type is "webm" padded with four
trailing NUL bytes is accepted. -/
theorem ebml_header_validation_witness :
    (∃ msg, EbmlHeader.new [(.DocType, .Stringy "webm"), (.DocTypeVersion, .Unsigned 4),
        (.DocTypeReadVersion, .Unsigned 2), (.EbmlMaxIdLength, .Unsigned 5)] =
      .error (.InvalidEbmlHeader msg))
    ∧ EbmlHeader.new [(.DocType, .Stringy "webm\x00\x00\x00\x00"),
        (.DocTypeVersion, .Unsigned 4), (.DocTypeReadVersion, .Unsigned 2)] =
      .ok ⟨none, none, 4, 8, "webm\x00\x00\x00\x00", 4, 2⟩ :=
  ⟨(ebml_header_validation [(.DocType, .Stringy "webm"), (.DocTypeVersion, .Unsigned 4),
        (.DocTypeReadVersion, .Unsigned 2), (.EbmlMaxIdLength, .Unsigned 5)]
      none none 5 8 4 2 "webm" rfl rfl rfl rfl rfl rfl rfl).1
      (Or.inl (by norm_num)),
    (ebml_header_validation [(.DocType, .Stringy "webm\x00\x00\x00\x00"),
        (.DocTypeVersion, .Unsigned 4), (.DocTypeReadVersion, .Unsigned 2)]
      none none 4 8 4 2 "webm\x00\x00\x00\x00" rfl rfl rfl rfl rfl rfl rfl).2
      ⟨by norm_num, by norm_num, by norm_num, Or.inr (by decide)⟩⟩

/-- C10: when the EBML header master lacks the `EbmlVersion` and
`EbmlReadVersion` children, binding does not fail with `ElementNotFound`
for those tags: given valid remaining fields it succeeds, and the
`version()` and `read_version()` accessors return `None`. -/
theorem ebml_header_missing_versions (fields : Fields)
    (mi ms dtv dtrv : Nat) (dt : String)
    (hv : try_find_unsigned fields .EbmlVersion = .ok none)
    (hrv : try_find_unsigned fields .EbmlReadVersion = .ok none)
    (hmi : find_unsigned_or fields .EbmlMaxIdLength 4 = .ok mi)
    (hms : find_unsigned_or fields .EbmlMaxSizeLength 8 = .ok ms)
    (hdt : find_string fields .DocType = .ok dt)
    (hdtv : find_unsigned fields .DocTypeVersion = .ok dtv)
    (hdtrv : find_unsigned fields .DocTypeReadVersion = .ok dtrv)
    (hmi4 : mi ≤ 4) (hms8 : ms ≤ 8) (hdtrv4 : dtrv < 4)
    (hdoc : trim_end_nul dt = "matroska" ∨ trim_end_nul dt = "webm") :
    ∃ h, EbmlHeader.new fields = .ok h ∧ h.version = none ∧ h.read_version = none := by
  refine ⟨⟨none, none, mi, ms, dt, dtv, dtrv⟩, ?_, rfl, rfl⟩
  rw [ebml_header_new_eval fields none none mi ms dtv dtrv dt hv hrv hmi hms hdt hdtv hdtrv]
  split_ifs with c1 c2 c3 c4
  · exfalso
    rcases hdoc with h | h
    · exact c1.1 h
    · exact c1.2 h
  · omega
  · omega
  · omega
  · rfl

/-- C10 witness: a header field list without `EbmlVersion` and
`EbmlReadVersion` binds successfully with both accessors `None`. -/
theorem ebml_header_missing_versions_witness :
    ∃ h, EbmlHeader.new [(.DocType, .Stringy "matroska"), (.DocTypeVersion, .Unsigned 4),
        (.DocTypeReadVersion, .Unsigned 2)] = .ok h
      ∧ h.version = none ∧ h.read_version = none :=
  ebml_header_missing_versions [(.DocType, .Stringy "matroska"),
      (.DocTypeVersion, .Unsigned 4), (.DocTypeReadVersion, .Unsigned 2)]
    4 8 4 2 "matroska" rfl rfl rfl rfl rfl rfl rfl (by norm_num) (by norm_num)
    (by norm_num) (Or.inl (by decide))

end Matroska
